import Mathlib

/-!
Verification of the brickblock space-management engine (src/brickblock/space.py).

The development shallowly embeds the `Space` class and its operations.
Machine floats are embedded as exact integers (all exercised values are
integral; means keep an exact num/den pair); numpy arrays over a fixed
capacity are embedded as lists of that length (writes past the end fail,
as they do for numpy assignment).  Python methods that mutate `self` and
may raise become functions `Space -> args -> Space x Option Err`: the
returned state is the state at the moment the call returns or raises,
so partially-applied updates made before an exception are observable,
exactly as for a caught Python exception.

Two collaborator modules are imported by space.py but are not part of the
sources: brickblock/index.py (class SpaceIndex) and brickblock/objects.py
(Cube, Cuboid, CompositeCube).  They are modelled from the specification
(sections 4.4 and 6) and from the shapes the test-suite exhibits; each such
definition carries a doc comment starting with `Modelled from the spec:`.
-/

deriving instance DecidableEq for Except

namespace Brickblock

/-- A 3-vector of coordinates.  The source stores machine floats; every
value the claims exercise is integral, and float arithmetic on integral
values (addition, negation, multiplication by integers) is exact, so
coordinates are embedded as integers. -/
abbrev V3 : Type := ℤ × ℤ × ℤ

/-- Per-axis (minimum, maximum) pair. -/
abbrev Extent : Type := ℤ × ℤ

/-- The running bounding box `dims`: per-axis (min, max), three axes. -/
abbrev Box : Type := Extent × Extent × Extent

/-- A face: four vertices. -/
abbrev Face : Type := List V3

/-- The dense geometry of one primitive: six faces of four vertices. -/
abbrev FacesBlock : Type := List Face

/-- A half-open id range `[start, stop)` standing for a Python slice. -/
abbrev Slice : Type := ℕ × ℕ

def zeroV3 : V3 := (0, 0, 0)

def addV (a b : V3) : V3 := (a.1 + b.1, a.2.1 + b.2.1, a.2.2 + b.2.2)

def mulV (a b : V3) : V3 := (a.1 * b.1, a.2.1 * b.2.1, a.2.2 * b.2.2)

def negV (a : V3) : V3 := (-a.1, -a.2.1, -a.2.2)

/-- An exact (unnormalised) fraction num/den: the embedding of a float
value produced by a division.  Only the running mean and total use these,
and no operation of the store reads them back. -/
abbrev Frac : Type := ℤ × ℤ

/-- A 3-vector of fractions. -/
abbrev V3F : Type := Frac × Frac × Frac

/-- Exact fraction addition. -/
def addF (a b : Frac) : Frac := (a.1 * b.2 + b.1 * a.2, a.2 * b.2)

/-- Componentwise fraction addition. -/
def addF3 (a b : V3F) : V3F :=
  (addF a.1 b.1, addF a.2.1 b.2.1, addF a.2.2 b.2.2)

/-- Componentwise division of a fraction vector by an integer. -/
def divF3 (a : V3F) (n : ℤ) : V3F :=
  ((a.1.1, a.1.2 * n), (a.2.1.1, a.2.1.2 * n), (a.2.2.1, a.2.2.2 * n))

/-- The zero fraction vector (numpy zeros((3,1))). -/
def zeroV3F : V3F := ((0, 1), (0, 1), (0, 1))

/-- np.any on a 3-vector: true iff some component is nonzero. -/
def anyNonzero (v : V3) : Bool := v.1 != 0 || v.2.1 != 0 || v.2.2 != 0

/-- One all-zero face (4 vertices). -/
def zeroFace : Face := List.replicate 4 zeroV3

/-- One all-zero geometry block (6 faces x 4 vertices of zeros). -/
def zeroBlock : FacesBlock := List.replicate 6 zeroFace

/-- A visual-metadata value: Python None, a string, or a number. -/
inductive VisValue where
  | vNone : VisValue
  | vStr : String → VisValue
  /-- A numeric value, kept as the exact num/den pair of the float. -/
  | vNum : ℤ → ℤ → VisValue
deriving DecidableEq, Repr

/-- Errors raised by the engine (Python exception kinds). -/
inductive Err where
  /-- Exception: there already exists an object with this name. -/
  | duplicateName : Err
  /-- Exception: the entity to name has no IDs associated with it. -/
  | noIds : Err
  /-- KeyError: the provided key matches no valid visual property. -/
  | keyError : Err
  /-- ValueError: the input coordinate vector is not 3D. -/
  | valueErrorCoordinate : Err
  /-- ValueError: the provided name does not exist in this space. -/
  | valueErrorName : Err
  /-- ValueError: the provided timestep is invalid in this space. -/
  | valueErrorTimestep : Err
  /-- ValueError: the provided scene ID is invalid in this space. -/
  | valueErrorScene : Err
  /-- ValueError: exactly one transform argument can be set. -/
  | exactlyOneTransform : Err
  /-- ValueError: exactly one selection argument can be set. -/
  | exactlyOneSelection : Err
  /-- TypeError: a keyword argument absent from the function signature. -/
  | typeErrorUnexpectedKwarg : Err
  /-- IndexError: numpy element assignment past the end of a buffer. -/
  | indexError : Err
  /-- IndexError: indexing past the end of a Python list argument. -/
  | listIndexError : Err
  /-- ValueError: numpy slice assignment whose shapes cannot broadcast. -/
  | broadcastError : Err
  /-- Exception: a snapshot needs an addition/mutation/deletion in scene. -/
  | stateError : Err
  /-- NotImplementedError: styles are not supported. -/
  | notImplementedStyle : Err
deriving DecidableEq, Repr

/-- Element assignment `l[i] = v` for a fixed-capacity numpy buffer:
fails (IndexError) when `i` is out of range. -/
def setAt? {α : Type} (l : List α) (i : ℕ) (v : α) : Option (List α) :=
  if i < l.length then some (l.set i v) else none

/-- Numpy slice assignment `l[start:stop] = vals` where `vals` has length
`stop - start`: fails (cannot broadcast) unless the clipped target region
has exactly that length, i.e. unless `stop ≤ l.length`. -/
def setRange? {α : Type} (l : List α) (start stop : ℕ) (vals : List α) :
    Option (List α) :=
  if start ≤ stop ∧ stop ≤ l.length ∧ vals.length = stop - start then
    some (l.take start ++ vals ++ l.drop stop)
  else none

/-- `ndarray.resize` to a larger first dimension: existing rows keep their
indices, new rows are zero-filled. -/
def resizeTo {α : Type} (l : List α) (n : ℕ) (z : α) : List α :=
  l ++ List.replicate (n - l.length) z

/-- Python list slice assignment `l[a:b] = replicate (b-a) v`
(equal-length case): `l[:a] + new values + l[b:]`. -/
def fillRange {α : Type} (l : List α) (a b : ℕ) (v : α) : List α :=
  l.take a ++ List.replicate (b - a) v ++ l.drop b

/-- Numpy in-place map over rows `a..b-1`: `arr[a:b] = f(arr[a:b])`. -/
def mapRange {α : Type} (l : List α) (a b : ℕ) (f : α → α) : List α :=
  l.take a ++ ((l.drop a).take (b - a)).map f ++ l.drop b

/-- Ordered-dictionary lookup over an association list. -/
def lookupA {β : Type} (l : List (String × β)) (k : String) : Option β :=
  (l.find? (fun kv => kv.1 == k)).map (fun kv => kv.2)

/-- Ordered-dictionary write: replace in place when the key exists,
append at the end otherwise (Python dict insertion order). -/
def setA {β : Type} (l : List (String × β)) (k : String) (v : β) :
    List (String × β) :=
  if (l.find? (fun kv => kv.1 == k)).isSome then
    l.map (fun kv => if kv.1 == k then (kv.1, v) else kv)
  else l ++ [(k, v)]

/-- Python dict union `left | right`: left's keys in order with right's
values taking precedence, then right-only keys in right's order. -/
def unionA {β : Type} (left right : List (String × β)) :
    List (String × β) :=
  left.map (fun kv =>
    match lookupA right kv.1 with
    | some v => (kv.1, v)
    | none => kv)
  ++ right.filter (fun kv => (lookupA left kv.1).isNone)

/-- Modelled from the spec: the TemporalIndex (class SpaceIndex of the
missing brickblock/index.py).  Two parallel touch logs, one over primitive
ids and one over composite ranges; each entry carries the time-step and
scene counter at the moment of the touch (spec section 4.4). -/
structure SpaceIndex where
  primitiveTouches : List (ℕ × ℕ × ℕ)
  compositeTouches : List (Slice × ℕ × ℕ)
deriving DecidableEq, Repr

def emptyIndex : SpaceIndex := ⟨[], []⟩

/-- Modelled from the spec: record a primitive touch. -/
def addPrimitiveToIndex (ix : SpaceIndex) (pid t sc : ℕ) : SpaceIndex :=
  { ix with primitiveTouches := ix.primitiveTouches ++ [(pid, t, sc)] }

/-- Modelled from the spec: record a composite-range touch. -/
def addCompositeToIndex (ix : SpaceIndex) (sl : Slice) (t sc : ℕ) :
    SpaceIndex :=
  { ix with compositeTouches := ix.compositeTouches ++ [(sl, t, sc)] }

/-- Modelled from the spec: the sequence yielded by a fresh iterator from
SpaceIndex.primitives() — the primitive touch log's ids in record order.
The tests list this generator repeatedly and always see the full log, so
every call returns a fresh iterator positioned at the start. -/
def primitivesSeq (ix : SpaceIndex) : List ℕ :=
  ix.primitiveTouches.map (fun e => e.1)

/-- Modelled from the spec: the sequence yielded by a fresh iterator from
SpaceIndex.composites() — the recorded composite ranges in record order. -/
def compositesSeq (ix : SpaceIndex) : List Slice :=
  ix.compositeTouches.map (fun e => e.1)

/-- Modelled from the spec: ids touched at exactly this time-step, in
record order, not deduplicated. -/
def getPrimitivesByTimestep (ix : SpaceIndex) (t : ℕ) : List ℕ :=
  (ix.primitiveTouches.filter (fun e => e.2.1 == t)).map (fun e => e.1)

/-- Modelled from the spec: ranges touched at exactly this time-step. -/
def getCompositesByTimestep (ix : SpaceIndex) (t : ℕ) : List Slice :=
  (ix.compositeTouches.filter (fun e => e.2.1 == t)).map (fun e => e.1)

/-- Modelled from the spec: ids touched within this scene, in record
order (the caller deduplicates). -/
def getPrimitivesByScene (ix : SpaceIndex) (sc : ℕ) : List ℕ :=
  (ix.primitiveTouches.filter (fun e => e.2.2 == sc)).map (fun e => e.1)

/-- Modelled from the spec: ranges touched within this scene. -/
def getCompositesByScene (ix : SpaceIndex) (sc : ℕ) : List Slice :=
  (ix.compositeTouches.filter (fun e => e.2.2 == sc)).map (fun e => e.1)

/-- Modelled from the spec: a scene boundary is valid only if at least one
state-changing event was recorded in the current (not yet closed) scene,
whose id is `expected - 1`. -/
def currentSceneIsValid (ix : SpaceIndex) (expected : ℕ) : Bool :=
  ix.primitiveTouches.any (fun e => e.2.2 == expected - 1) ||
  ix.compositeTouches.any (fun e => e.2.2 == expected - 1)

/-- Modelled from the spec: a fully-formed primitive as handed over by the
geometry-construction collaborator (missing brickblock/objects.py): a
6x4x3 geometry block, a shape vector, an attribute map and an optional
name (spec section 6).  Cube and Cuboid are both of this form. -/
structure CuboidObj where
  faces : FacesBlock
  shape : V3
  visualMetadata : List (String × VisValue)
  name : Option String
deriving DecidableEq, Repr

/-- Modelled from the spec: a fully-formed composite: one geometry block
per member primitive, a broadcast shape vector, one attribute map, an
optional name, and a style tag. -/
structure CompositeObj where
  faces : List FacesBlock
  shape : V3
  visualMetadata : List (String × VisValue)
  name : Option String
  style : String
deriving DecidableEq, Repr

/-- All 24 vertices of a primitive. -/
def points (c : CuboidObj) : List V3 := c.faces.flatten

/-- Fold per-axis minima over a point list starting from `p`. -/
def minsFrom (p : V3) (pts : List V3) : V3 :=
  pts.foldl (fun m q => (min m.1 q.1, min m.2.1 q.2.1, min m.2.2 q.2.2)) p

/-- Fold per-axis maxima over a point list starting from `p`. -/
def maxsFrom (p : V3) (pts : List V3) : V3 :=
  pts.foldl (fun m q => (max m.1 q.1, max m.2.1 q.2.1, max m.2.2 q.2.2)) p

/-- Per-axis (min, max) box of a point list (empty list gives zeros;
callers never pass an empty list). -/
def boxOf (pts : List V3) : Box :=
  match pts with
  | [] => ((0, 0), (0, 0), (0, 0))
  | p :: rest =>
    let m := minsFrom p rest
    let M := maxsFrom p rest
    ((m.1, M.1), (m.2.1, M.2.1), (m.2.2, M.2.2))

/-- Modelled from the spec: Cube/Cuboid.bounding_box(), the per-axis
extrema of the primitive's 24 stored vertices. -/
def boundingBox (c : CuboidObj) : Box := boxOf (points c)

/-- Mean point of a list of points (numpy mean along axis 0), as an
exact fraction per axis. -/
def meanPoints (pts : List V3) : V3F :=
  let s := pts.foldl addV zeroV3
  ((s.1, (pts.length : ℤ)), (s.2.1, (pts.length : ℤ)),
   (s.2.2, (pts.length : ℤ)))

/-- Modelled from the spec: the dense 6-face/4-vertex block the external
geometry constructor produces for a box with stored base `b` and stored
extents `w` (axis 0), `d` (axis 1), `h` (axis 2); layout as exhibited by
the test-suite's mock coordinate entries. -/
def facesFrom (b : V3) (w h d : ℤ) : FacesBlock :=
  let p0 : V3 := b
  let p1 : V3 := addV b (0, d, 0)
  let p2 : V3 := addV b (w, d, 0)
  let p3 : V3 := addV b (w, 0, 0)
  let p4 : V3 := addV b (0, 0, h)
  let p5 : V3 := addV b (0, d, h)
  let p6 : V3 := addV b (w, d, h)
  let p7 : V3 := addV b (w, 0, h)
  [[p0, p1, p2, p3], [p0, p4, p7, p3], [p0, p1, p5, p4],
   [p3, p7, p6, p2], [p1, p5, p6, p2], [p4, p5, p6, p7]]

/-- User coordinates (XYZ) to storage basis (XZY) and back: the fixed
axis permutation `_convert_basis` (the matrix is its own inverse). -/
def convertBasis (c : V3) : V3 := (c.1, c.2.2, c.2.1)

/-- Default visual metadata of constructed objects, as the test-suite
exhibits it. -/
def defaultVisual : List (String × VisValue) :=
  [("facecolor", VisValue.vNone), ("linewidth", VisValue.vNum 1 10),
   ("edgecolor", VisValue.vStr "black"), ("alpha", VisValue.vNum 0 1)]

/-- Modelled from the spec: the Cuboid constructor — user-facing base
vector in XYZ, width/height/depth extents, attribute map, optional name. -/
def mkCuboid (base : V3) (w h d : ℤ)
    (meta : List (String × VisValue)) (name : Option String) : CuboidObj :=
  { faces := facesFrom (convertBasis base) w h d
    shape := (w, h, d)
    visualMetadata := meta
    name := name }

/-- Modelled from the spec: the Cube constructor (uniform scale). -/
def mkCube (base : V3) (s : ℤ) (meta : List (String × VisValue))
    (name : Option String) : CuboidObj :=
  mkCuboid base s s s meta name

/-- Modelled from the spec: the CompositeCube constructor — a w*h*d grid
of unit cubes; members enumerated with the depth index fastest, so the
first member sits at the composite's base vertex. -/
def mkComposite (base : V3) (w h d : ℕ)
    (meta : List (String × VisValue)) (name : Option String) :
    CompositeObj :=
  let b := convertBasis base
  { faces :=
      (List.range w).flatMap (fun i =>
        (List.range h).flatMap (fun j =>
          (List.range d).map (fun k =>
            facesFrom (addV b ((i : ℤ), (k : ℤ), (j : ℤ))) 1 1 1)))
    shape := ((w : ℤ), (h : ℤ), (d : ℤ))
    visualMetadata := meta
    name := name
    style := "" }

/-- A change-log event (class SpaceStateChange and its dataclasses;
the unused Deletion dataclass is omitted as no operation constructs it). -/
inductive SpaceStateChange where
  | addition (timestepId : ℕ) (name : Option String) : SpaceStateChange
  | mutation (subject : List (String × List VisValue))
      (name : Option String) (coordinate : Option (List ℤ))
      (timestepId : Option ℕ) (sceneId : Option ℕ) : SpaceStateChange
  | transform (transform : V3) (transformName : String)
      (name : Option String) (coordinate : Option (List ℤ))
      (timestepId : Option ℕ) (sceneId : Option ℕ) : SpaceStateChange
deriving DecidableEq, Repr

/-- The Space class state. -/
structure Space where
  dims : Box
  mean : V3F
  total : V3F
  numObjs : ℕ
  primitiveCounter : ℕ
  timeStep : ℕ
  sceneCounter : ℕ
  cuboidCoordinates : List FacesBlock
  cuboidShapes : List V3
  cuboidVisualMetadata : List (String × List VisValue)
  cuboidIndex : SpaceIndex
  cuboidNames : List (String × (Option (List ℕ) × Option (List Slice)))
  changelog : List SpaceStateChange
deriving DecidableEq, Repr

/-- Space.__init__: ten zeroed primitive slots in each buffer. -/
def spaceInit : Space :=
  { dims := ((0, 0), (0, 0), (0, 0))
    mean := zeroV3F
    total := zeroV3F
    numObjs := 0
    primitiveCounter := 0
    timeStep := 0
    sceneCounter := 0
    cuboidCoordinates := List.replicate 10 zeroBlock
    cuboidShapes := List.replicate 10 zeroV3
    cuboidVisualMetadata := []
    cuboidIndex := emptyIndex
    cuboidNames := []
    changelog := [] }

/-- Per-axis merge of the running box with a new box: min of mins, max of
maxes (the `else` branch of the dims update in the add paths). -/
def mergeBox (d b : Box) : Box :=
  ((min d.1.1 b.1.1, max d.1.2 b.1.2),
   (min d.2.1.1 b.2.1.1, max d.2.1.2 b.2.1.2),
   (min d.2.2.1 b.2.2.1, max d.2.2.2 b.2.2.2))

/-- The stored base vertex of primitive `idx`: entry `[idx][0][0]` of the
coordinate buffer (callers only use indices below the primitive counter,
which never exceeds the buffer length). -/
def baseVertexAt (s : Space) (idx : ℕ) : V3 :=
  ((s.cuboidCoordinates.getD idx zeroBlock).headD zeroFace).headD zeroV3

/-- The visual-metadata update in Space._add_cuboid_primitive: append the
cuboid's value to each named column, creating the column if new. -/
def addMetadata (store : List (String × List VisValue))
    (meta : List (String × VisValue)) : List (String × List VisValue) :=
  meta.foldl (fun st kv =>
    match lookupA st kv.1 with
    | some col => setA st kv.1 (col ++ [kv.2])
    | none => st ++ [(kv.1, [kv.2])]) store

/-- The visual-metadata update in Space._add_cuboid_composite: extend each
named column with the broadcast value, one copy per member. -/
def extendMetadata (store : List (String × List VisValue))
    (meta : List (String × VisValue)) (n : ℕ) :
    List (String × List VisValue) :=
  meta.foldl (fun st kv =>
    match lookupA st kv.1 with
    | some col => setA st kv.1 (col ++ List.replicate n kv.2)
    | none => st ++ [(kv.1, List.replicate n kv.2)]) store

/-- Space._update_bounds: merge the extrema of the stored coordinates of
primitives `start..stop-1` into the running box (callers always pass a
nonempty in-range slice; on the empty list numpy's min would raise). -/
def updateBounds (s : Space) (start stop : ℕ) : Space :=
  match ((((s.cuboidCoordinates.drop start).take (stop - start)).flatten).flatten) with
  | [] => s
  | p :: rest =>
    let m := minsFrom p rest
    let M := maxsFrom p rest
    { s with dims := mergeBox s.dims ((m.1, M.1), (m.2.1, M.2.1), (m.2.2, M.2.2)) }

/-- Space._add_cuboid_primitive: update aggregates, resize the coordinate
buffer if full (the shape buffer is not resized here), write shape and
geometry, extend the metadata columns, record the touch, and return the
new id.  A failing buffer write raises IndexError with the aggregate
updates already applied. -/
def addCuboidPrimitive (s : Space) (c : CuboidObj) :
    Space × Except Err ℕ :=
  let bbox := boundingBox c
  let cmean := meanPoints (points c)
  let total' := addF3 s.total cmean
  let mean' := divF3 total' ((s.numObjs : ℤ) + 1)
  let dim := if s.primitiveCounter = 0 then bbox else mergeBox s.dims bbox
  let s := { s with total := total', mean := mean', dims := dim }
  let n := s.cuboidCoordinates.length
  let s :=
    if s.primitiveCounter ≥ n then
      { s with cuboidCoordinates := resizeTo s.cuboidCoordinates (2 * n) zeroBlock }
    else s
  match setAt? s.cuboidShapes s.primitiveCounter c.shape with
  | none => (s, .error .indexError)
  | some shapes' =>
    let s := { s with cuboidShapes := shapes' }
    match setAt? s.cuboidCoordinates s.primitiveCounter c.faces with
    | none => (s, .error .indexError)
    | some coords' =>
      let s := { s with cuboidCoordinates := coords' }
      let s := { s with cuboidVisualMetadata := addMetadata s.cuboidVisualMetadata c.visualMetadata }
      let s := { s with cuboidIndex := addPrimitiveToIndex s.cuboidIndex s.primitiveCounter s.timeStep s.sceneCounter }
      ({ s with primitiveCounter := s.primitiveCounter + 1 },
       .ok s.primitiveCounter)

/-- The doubling loop of Space._add_cuboid_composite: double the working
capacity until twice it reaches the composite's member count.  (Python
would loop forever on capacity 0; buffers start at 10 slots, so the
guard is never the deciding branch.) -/
def growTarget (cur num : ℕ) : ℕ :=
  if h : 0 < cur ∧ 2 * cur < num then growTarget (2 * cur) num else cur
termination_by num - cur
decreasing_by omega

/-- Space._add_name: record a name binding; duplicate names and bindings
without ids are errors.  A missing name records nothing. -/
def addName (s : Space) (name : Option String)
    (objectIds : Option (List ℕ) × Option (List Slice)) :
    Space × Option Err :=
  match name with
  | none => (s, none)
  | some nm =>
    if (lookupA s.cuboidNames nm).isSome then (s, some .duplicateName)
    else if objectIds.1.isNone ∧ objectIds.2.isNone then (s, some .noIds)
    else ({ s with cuboidNames := s.cuboidNames ++ [(nm, objectIds)] }, none)

/-- Space._add_cuboid_composite: update aggregates, resize both buffers
when the composite would not fit (doubling a target capacity that is
compared against the member count alone), block-write geometry and
broadcast shape, extend metadata, bump the primitive counter, record the
range touch, and reject the classic style last. -/
def addCuboidComposite (s : Space) (comp : CompositeObj) :
    Space × Except Err Slice :=
  let numCubes := comp.faces.length
  let total' := addF3 s.total (meanPoints ((comp.faces.flatten).flatten))
  let mean' := divF3 total' ((s.numObjs : ℤ) + 1)
  let compositePoints :=
    ((comp.faces.headD zeroBlock).headD zeroFace) ++
      ((comp.faces.getLastD zeroBlock).getLastD zeroFace)
  let extrema := boxOf compositePoints
  let dim :=
    if s.primitiveCounter = 0 then extrema else mergeBox s.dims extrema
  let s := { s with total := total', mean := mean', dims := dim }
  let n := s.cuboidCoordinates.length
  let s :=
    if s.primitiveCounter + numCubes ≥ n then
      let target := growTarget n numCubes
      { s with
        cuboidCoordinates := resizeTo s.cuboidCoordinates (2 * target) zeroBlock
        cuboidShapes := resizeTo s.cuboidShapes (2 * target) zeroV3 }
    else s
  let base := s.primitiveCounter
  let offset := base + numCubes
  match setRange? s.cuboidCoordinates base offset comp.faces with
  | none => (s, .error .broadcastError)
  | some coords' =>
    let s := { s with cuboidCoordinates := coords' }
    match setRange? s.cuboidShapes base offset
        (List.replicate numCubes comp.shape) with
    | none => (s, .error .broadcastError)
    | some shapes' =>
      let s := { s with cuboidShapes := shapes' }
      let s := { s with cuboidVisualMetadata := extendMetadata s.cuboidVisualMetadata comp.visualMetadata numCubes }
      let s := { s with primitiveCounter := s.primitiveCounter + numCubes }
      let s := { s with cuboidIndex := addCompositeToIndex s.cuboidIndex (base, offset) s.timeStep s.sceneCounter }
      if comp.style == "classic" then (s, .error .notImplementedStyle)
      else (s, .ok (base, offset))

/-- Space.add_cube: add the primitive, bind the name, count the object,
log the Addition, advance time, merge bounds. -/
def addCube (s : Space) (cube : CuboidObj) : Space × Option Err :=
  match addCuboidPrimitive s cube with
  | (s1, .error e) => (s1, some e)
  | (s1, .ok pid) =>
    match addName s1 cube.name (some [pid], none) with
    | (s2, some e) => (s2, some e)
    | (s2, none) =>
      let s3 := { s2 with numObjs := s2.numObjs + 1 }
      let s4 := { s3 with changelog := s3.changelog ++ [SpaceStateChange.addition s3.timeStep none] }
      let s5 := { s4 with timeStep := s4.timeStep + 1 }
      (updateBounds s5 pid (pid + 1), none)

/-- Space.add_cuboid: its body is the same, line for line, as add_cube. -/
def addCuboid (s : Space) (cuboid : CuboidObj) : Space × Option Err :=
  addCube s cuboid

/-- Space.add_composite. -/
def addComposite (s : Space) (comp : CompositeObj) : Space × Option Err :=
  match addCuboidComposite s comp with
  | (s1, .error e) => (s1, some e)
  | (s1, .ok sl) =>
    match addName s1 comp.name (none, some [sl]) with
    | (s2, some e) => (s2, some e)
    | (s2, none) =>
      let s3 := { s2 with numObjs := s2.numObjs + 1 }
      let s4 := { s3 with changelog := s3.changelog ++ [SpaceStateChange.addition s3.timeStep none] }
      let s5 := { s4 with timeStep := s4.timeStep + 1 }
      (updateBounds s5 sl.1 sl.2, none)

/-- The indices of stored primitives whose base vertex equals `c` (the
scan loop of Space._select_by_coordinate). -/
def matchingBaseVectors (s : Space) (c : V3) : List ℕ :=
  (List.range s.primitiveCounter).filter
    (fun idx => baseVertexAt s idx == c)

/-- The per-index classification step of Space._select_by_coordinate.
Advancing a cursor calls next() over a freshly created iterator from
SpaceIndex.primitives()/composites(), which always yields the first log
entry again. -/
def selCursorStep (s : Space)
    (st : Option ℕ × Option Slice × List ℕ × List Slice) (idx : ℕ) :
    Option ℕ × Option Slice × List ℕ × List Slice :=
  let (pc, cc, prims, comps) := st
  let (pc, prims) :=
    match pc with
    | some pid =>
      if pid == idx then
        ((primitivesSeq s.cuboidIndex).head?, prims ++ [pid])
      else (pc, prims)
    | none => (none, prims)
  let (cc, comps) :=
    match cc with
    | some sl =>
      if sl.1 == idx then
        ((compositesSeq s.cuboidIndex).head?, comps ++ [sl])
      else (cc, comps)
    | none => (none, comps)
  (pc, cc, prims, comps)

/-- Space._select_by_coordinate: reject non-3D input, convert the basis,
collect the indices of primitives whose stored base vertex equals the
converted coordinate, then classify them against the index cursors. -/
def selectByCoordinate (s : Space) (coordinate : List ℤ) :
    Except Err (List ℕ × List Slice) :=
  if coordinate.length ≠ 3 then .error .valueErrorCoordinate
  else
    let c := convertBasis
      (coordinate.getD 0 0, coordinate.getD 1 0, coordinate.getD 2 0)
    let res := (matchingBaseVectors s c).foldl (selCursorStep s)
      ((primitivesSeq s.cuboidIndex).head?,
       (compositesSeq s.cuboidIndex).head?, [], [])
    .ok (res.2.2.1, res.2.2.2)

/-- Space._select_by_name. -/
def selectByName (s : Space) (name : String) :
    Except Err (List ℕ × List Slice) :=
  match lookupA s.cuboidNames name with
  | none => .error .valueErrorName
  | some (pids, cids) => .ok (pids.getD [], cids.getD [])

/-- Space._select_by_timestep (a Python caller could also pass a negative
timestep, equally rejected; naturals make that case unrepresentable). -/
def selectByTimestep (s : Space) (t : ℕ) :
    Except Err (List ℕ × List Slice) :=
  if t > s.timeStep then .error .valueErrorTimestep
  else .ok (getPrimitivesByTimestep s.cuboidIndex t,
    getCompositesByTimestep s.cuboidIndex t)

/-- Ascending sort of ids, `sorted` on ints. -/
def sortNat (l : List ℕ) : List ℕ := l.insertionSort (fun a b => a ≤ b)

/-- `sorted` over Python slices compares (start, stop) lexicographically. -/
def sortSlices (l : List Slice) : List Slice :=
  l.insertionSort (fun a b => a.1 < b.1 ∨ (a.1 = b.1 ∧ a.2 ≤ b.2))

/-- Space._select_by_scene: validate the scene id, then deduplicate and
sort the ids; ranges are deduplicated by their (start, stop) pair. -/
def selectByScene (s : Space) (sc : ℕ) :
    Except Err (List ℕ × List Slice) :=
  if sc > s.sceneCounter then .error .valueErrorScene
  else .ok (sortNat (getPrimitivesByScene s.cuboidIndex sc).dedup,
    sortSlices (getCompositesByScene s.cuboidIndex sc).dedup)

/-- A mutation delta: keyword arguments of a mutate call, in key order. -/
abbrev Kwargs : Type := List (String × VisValue)

/-- The key loop of Space._mutate_by_ids: per key, validate it, capture
each selected primitive's prior value and overwrite it, then capture each
selected range's first-member value and broadcast-overwrite the range.
An unknown key raises KeyError after the previous keys' updates. -/
def mutKeys (P : List ℕ) (C : List Slice) :
    Space → Kwargs → List (String × List VisValue) →
    Space × Except Err (List (String × List VisValue))
  | s, [], acc => (s, .ok acc)
  | s, (k, v) :: rest, acc =>
    if (lookupA s.cuboidVisualMetadata k).isNone then (s, .error .keyError)
    else
      let col := (lookupA s.cuboidVisualMetadata k).getD []
      let pr := P.foldl
        (fun cb pid => (cb.1.set pid v, cb.2 ++ [cb.1.getD pid .vNone]))
        (col, ([] : List VisValue))
      let cr := C.foldl
        (fun cb sl =>
          (fillRange cb.1 sl.1 sl.2 v, cb.2 ++ [cb.1.getD sl.1 .vNone]))
        pr
      let s' := { s with cuboidVisualMetadata := setA s.cuboidVisualMetadata k cr.1 }
      mutKeys P C s' rest (acc ++ [(k, cr.2)])

/-- Space._mutate_by_ids: run the key loop, then re-register every touched
id and range at the current time-step, then advance the time-step and
return the captured prior values. -/
def mutateByIds (s : Space) (P : List ℕ) (C : List Slice)
    (kwargs : Kwargs) :
    Space × Except Err (List (String × List VisValue)) :=
  match mutKeys P C s kwargs [] with
  | (s1, .error e) => (s1, .error e)
  | (s1, .ok before) =>
    let ix1 := P.foldl
      (fun ix pid => addPrimitiveToIndex ix pid s1.timeStep s1.sceneCounter)
      s1.cuboidIndex
    let ix2 := C.foldl
      (fun ix sl => addCompositeToIndex ix sl s1.timeStep s1.sceneCounter)
      ix1
    ({ s1 with cuboidIndex := ix2, timeStep := s1.timeStep + 1 },
     .ok before)

/-- The shared body of the four mutate_by_* methods (their source bodies
are identical apart from the selector call and the Mutation entry). -/
def mutateGeneric (s : Space) (sel : Except Err (List ℕ × List Slice))
    (kwargs : Kwargs)
    (mkEntry : List (String × List VisValue) → SpaceStateChange) :
    Space × Option Err :=
  match sel with
  | .error e => (s, some e)
  | .ok (P, C) =>
    if (P.isEmpty && C.isEmpty) || kwargs.isEmpty then (s, none)
    else
      match mutateByIds s P C kwargs with
      | (s', .error e) => (s', some e)
      | (s', .ok before) =>
        ({ s' with changelog := s'.changelog ++ [mkEntry before] }, none)

/-- Space.mutate_by_coordinate. -/
def mutateByCoordinate (s : Space) (coordinate : List ℤ)
    (kwargs : Kwargs) : Space × Option Err :=
  mutateGeneric s (selectByCoordinate s coordinate) kwargs
    (fun b => .mutation b none (some coordinate) none none)

/-- Space.mutate_by_name. -/
def mutateByName (s : Space) (name : String) (kwargs : Kwargs) :
    Space × Option Err :=
  mutateGeneric s (selectByName s name) kwargs
    (fun b => .mutation b (some name) none none none)

/-- Space.mutate_by_timestep. -/
def mutateByTimestep (s : Space) (t : ℕ) (kwargs : Kwargs) :
    Space × Option Err :=
  mutateGeneric s (selectByTimestep s t) kwargs
    (fun b => .mutation b none none (some t) none)

/-- Space.mutate_by_scene. -/
def mutateByScene (s : Space) (sc : ℕ) (kwargs : Kwargs) :
    Space × Option Err :=
  mutateGeneric s (selectByScene s sc) kwargs
    (fun b => .mutation b none none none (some sc))

/-- Map a pointwise function over every vertex of a geometry block. -/
def mapBlock (f : V3 → V3) (block : FacesBlock) : FacesBlock :=
  block.map (fun face => face.map f)

/-- In-place update of one buffer row, `arr[i] = f(arr[i])` (selected ids
are always below the primitive counter and hence in range). -/
def mapAt {α : Type} (l : List α) (i : ℕ) (f : α → α) : List α :=
  match l.get? i with
  | some x => l.set i (f x)
  | none => l

/-- Space._transform_by_ids: apply the pointwise function to each selected
primitive's block and each selected range's blocks, then re-register all
touches at the current time-step and advance it. -/
def transformByIds (s : Space) (P : List ℕ) (C : List Slice)
    (f : V3 → V3) : Space :=
  let coords1 := P.foldl (fun cs pid => mapAt cs pid (mapBlock f))
    s.cuboidCoordinates
  let coords2 := C.foldl (fun cs sl => mapRange cs sl.1 sl.2 (mapBlock f))
    coords1
  let s1 := { s with cuboidCoordinates := coords2 }
  let ix1 := P.foldl
    (fun ix pid => addPrimitiveToIndex ix pid s1.timeStep s1.sceneCounter)
    s1.cuboidIndex
  let ix2 := C.foldl
    (fun ix sl => addCompositeToIndex ix sl s1.timeStep s1.sceneCounter)
    ix1
  { s1 with cuboidIndex := ix2, timeStep := s1.timeStep + 1 }

/-- The shared body of the four transform_by_* methods (their source
bodies are identical apart from the selector call and the Transform
entry): after the selection, exactly one of translate/reflect must be
set; a translation logs its negation, a reflection logs itself; an empty
selection or an all-zero vector is a no-op. -/
def transformGeneric (s : Space) (sel : Except Err (List ℕ × List Slice))
    (translate reflect : Option V3)
    (mkEntry : V3 → String → SpaceStateChange) : Space × Option Err :=
  match sel with
  | .error e => (s, some e)
  | .ok (P, C) =>
    match translate, reflect with
    | some t, none =>
      if (P.isEmpty && C.isEmpty) || !anyNonzero t then (s, none)
      else
        let s1 := { s with changelog := s.changelog ++ [mkEntry (negV t) "translation"] }
        (transformByIds s1 P C (fun p => addV p t), none)
    | none, some r =>
      if (P.isEmpty && C.isEmpty) || !anyNonzero r then (s, none)
      else
        let s1 := { s with changelog := s.changelog ++ [mkEntry r "reflection"] }
        (transformByIds s1 P C (fun p => mulV p r), none)
    | _, _ => (s, some .exactlyOneTransform)

/-- Space.transform_by_coordinate (signature: translate and reflect only). -/
def transformByCoordinate (s : Space) (coordinate : List ℤ)
    (translate reflect : Option V3) : Space × Option Err :=
  transformGeneric s (selectByCoordinate s coordinate) translate reflect
    (fun v n => .transform v n none (some coordinate) none none)

/-- Space.transform_by_name. -/
def transformByName (s : Space) (name : String)
    (translate reflect : Option V3) : Space × Option Err :=
  transformGeneric s (selectByName s name) translate reflect
    (fun v n => .transform v n (some name) none none none)

/-- Space.transform_by_timestep. -/
def transformByTimestep (s : Space) (t : ℕ)
    (translate reflect : Option V3) : Space × Option Err :=
  transformGeneric s (selectByTimestep s t) translate reflect
    (fun v n => .transform v n none none (some t) none)

/-- Space.transform_by_scene. -/
def transformByScene (s : Space) (sc : ℕ)
    (translate reflect : Option V3) : Space × Option Err :=
  transformGeneric s (selectByScene s sc) translate reflect
    (fun v n => .transform v n none none none (some sc))

/-- The Python call boundary of Space.transform_by_coordinate when the
caller also passes a scale keyword: the method signature declares only
translate and reflect, so a scale argument raises TypeError before the
body runs. -/
def transformByCoordinateKw (s : Space) (coordinate : List ℤ)
    (translate reflect scale : Option V3) : Space × Option Err :=
  if scale.isSome then (s, some .typeErrorUnexpectedKwarg)
  else transformByCoordinate s coordinate translate reflect

/-- A clone override value: a scalar broadcast to every clone, or a
positional list indexed per clone. -/
inductive CloneVal where
  | scalar : VisValue → CloneVal
  | listV : List VisValue → CloneVal
deriving DecidableEq, Repr

/-- The per-id override dictionary built inside Space.clone_by_offset:
unknown keys raise KeyError, list values are indexed by the clone's
position (an out-of-range position raises IndexError). -/
def kwargsForId (s : Space) :
    List (String × CloneVal) → ℕ → Except Err (List (String × VisValue))
  | [], _ => .ok []
  | (k, v) :: rest, i =>
    if (lookupA s.cuboidVisualMetadata k).isNone then .error .keyError
    else
      match v with
      | .scalar x => (kwargsForId s rest i).map (fun l => (k, x) :: l)
      | .listV xs =>
        match xs.get? i with
        | none => .error .listIndexError
        | some x => (kwargsForId s rest i).map (fun l => (k, x) :: l)

/-- The interleaving loop of Space.clone_by_offset: one override
dictionary per selected object position. -/
def interleaveFrom (s : Space) (kwargs : List (String × CloneVal)) :
    List ℕ → Except Err (List (List (String × VisValue)))
  | [] => .ok []
  | i :: rest => do
    let h ← kwargsForId s kwargs i
    let t ← interleaveFrom s kwargs rest
    .ok (h :: t)

/-- The primitive-cloning loop of Space.clone_by_offset: inherit the
source's metadata (overrides taking precedence), rebuild a Cuboid at the
basis-converted base plus the offset, and append it as a new primitive. -/
def clonePrimLoop (offset : V3) :
    Space → List (ℕ × List (String × VisValue)) → List ℕ →
    Space × Except Err (List ℕ)
  | s, [], acc => (s, .ok acc)
  | s, (pid, vis) :: rest, acc =>
    let inherited := s.cuboidVisualMetadata.map
      (fun kc => (kc.1, kc.2.getD pid VisValue.vNone))
    let merged := unionA inherited vis
    let tbase := convertBasis (baseVertexAt s pid)
    let sh := s.cuboidShapes.getD pid zeroV3
    let cuboid := mkCuboid (addV tbase offset) sh.1 sh.2.1 sh.2.2 merged none
    match addCuboidPrimitive s cuboid with
    | (s1, .error e) => (s1, .error e)
    | (s1, .ok newPid) =>
      clonePrimLoop offset { s1 with numObjs := s1.numObjs + 1 } rest
        (acc ++ [newPid])

/-- The composite-cloning loop of Space.clone_by_offset: like the
primitive loop but templated on the range's first member, with the shape
cast through int() before rebuilding the composite. -/
def cloneCompLoop (offset : V3) :
    Space → List (Slice × List (String × VisValue)) → List Slice →
    Space × Except Err (List Slice)
  | s, [], acc => (s, .ok acc)
  | s, (sl, vis) :: rest, acc =>
    let start := sl.1
    let inherited := s.cuboidVisualMetadata.map
      (fun kc => (kc.1, kc.2.getD start VisValue.vNone))
    let merged := unionA inherited vis
    let tbase := convertBasis (baseVertexAt s start)
    let sh := s.cuboidShapes.getD start zeroV3
    let comp := mkComposite (addV tbase offset) sh.1.toNat sh.2.1.toNat
      sh.2.2.toNat merged none
    match addCuboidComposite s comp with
    | (s1, .error e) => (s1, .error e)
    | (s1, .ok newSl) =>
      cloneCompLoop offset { s1 with numObjs := s1.numObjs + 1 } rest
        (acc ++ [newSl])

/-- The tail of Space.clone_by_offset, from the resolved selection on:
an empty selection is a no-op; overrides are interleaved per position
(composites reuse the positions from the start of the interleaved list,
as the source's second zip does); all clones share one new time-step,
one Addition entry is logged, and bounds are merged over the new ids. -/
def cloneWithSelection (s : Space) (offset : V3)
    (sel : Except Err (List ℕ × List Slice))
    (kwargs : List (String × CloneVal)) : Space × Option Err :=
  match sel with
  | .error e => (s, some e)
  | .ok (P, C) =>
    if P.isEmpty && C.isEmpty then (s, none)
    else
      match interleaveFrom s kwargs (List.range (P.length + C.length)) with
      | .error e => (s, some e)
      | .ok inter =>
        match clonePrimLoop offset s (P.zip inter) [] with
        | (s1, .error e) => (s1, some e)
        | (s1, .ok newP) =>
          match cloneCompLoop offset s1 (C.zip inter) [] with
          | (s2, .error e) => (s2, some e)
          | (s2, .ok newC) =>
            let minId := match newP with
              | p :: _ => p
              | [] => (newC.headD (0, 0)).1
            let maxId :=
              if newC.isEmpty then newP.getLastD 0
              else (newC.getLastD (0, 0)).2 - 1
            let s3 := { s2 with changelog := s2.changelog ++ [SpaceStateChange.addition s2.timeStep none] }
            let s4 := { s3 with timeStep := s3.timeStep + 1 }
            (updateBounds s4 minId (maxId + 1), none)

/-- Space.clone_by_offset: exactly one selector must be given, then the
resolved selection is cloned by cloneWithSelection. -/
def cloneByOffset (s : Space) (offset : V3) (coordinate : Option (List ℤ))
    (name : Option String) (timestep scene : Option ℕ)
    (kwargs : List (String × CloneVal)) : Space × Option Err :=
  match coordinate, name, timestep, scene with
  | some c, none, none, none =>
    cloneWithSelection s offset (selectByCoordinate s c) kwargs
  | none, some nm, none, none =>
    cloneWithSelection s offset (selectByName s nm) kwargs
  | none, none, some t, none =>
    cloneWithSelection s offset (selectByTimestep s t) kwargs
  | none, none, none, some sc =>
    cloneWithSelection s offset (selectByScene s sc) kwargs
  | _, _, _, _ => (s, some .exactlyOneSelection)

/-- Space.snapshot: a scene boundary is only valid when the current scene
has at least one recorded event. -/
def snapshot (s : Space) : Space × Option Err :=
  let expected := s.sceneCounter + 1
  if currentSceneIsValid s.cuboidIndex expected then
    ({ s with sceneCounter := s.sceneCounter + 1 }, none)
  else (s, some .stateError)

/-- One public call against the store: the operations a caller can issue. -/
inductive Op where
  | opAddCube (c : CuboidObj) : Op
  | opAddCuboid (c : CuboidObj) : Op
  | opAddComposite (c : CompositeObj) : Op
  | opMutateByCoordinate (coordinate : List ℤ) (kwargs : Kwargs) : Op
  | opMutateByName (name : String) (kwargs : Kwargs) : Op
  | opMutateByTimestep (t : ℕ) (kwargs : Kwargs) : Op
  | opMutateByScene (sc : ℕ) (kwargs : Kwargs) : Op
  | opTransformByCoordinate (coordinate : List ℤ)
      (translate reflect : Option V3) : Op
  | opTransformByName (name : String) (translate reflect : Option V3) : Op
  | opTransformByTimestep (t : ℕ) (translate reflect : Option V3) : Op
  | opTransformByScene (sc : ℕ) (translate reflect : Option V3) : Op
  | opCloneByOffset (offset : V3) (coordinate : Option (List ℤ))
      (name : Option String) (timestep scene : Option ℕ)
      (kwargs : List (String × CloneVal)) : Op
  | opSnapshot : Op

/-- The state after one call, whether it returned normally or raised (a
raise leaves the object in its state at the moment of the exception). -/
def applyOp (s : Space) : Op → Space
  | .opAddCube c => (addCube s c).1
  | .opAddCuboid c => (addCuboid s c).1
  | .opAddComposite c => (addComposite s c).1
  | .opMutateByCoordinate co kw => (mutateByCoordinate s co kw).1
  | .opMutateByName nm kw => (mutateByName s nm kw).1
  | .opMutateByTimestep t kw => (mutateByTimestep s t kw).1
  | .opMutateByScene sc kw => (mutateByScene s sc kw).1
  | .opTransformByCoordinate co t r => (transformByCoordinate s co t r).1
  | .opTransformByName nm t r => (transformByName s nm t r).1
  | .opTransformByTimestep ts t r => (transformByTimestep s ts t r).1
  | .opTransformByScene sc t r => (transformByScene s sc t r).1
  | .opCloneByOffset off co nm ts sc kw =>
    (cloneByOffset s off co nm ts sc kw).1
  | .opSnapshot => (snapshot s).1

/-- Run a sequence of calls against a fresh store. -/
def runOps (ops : List Op) : Space := ops.foldl applyOp spaceInit

/-! Concrete stores used by the closed theorems below. -/

/-- A unit cube whose user base vector is (1, 2, 3). -/
def cubeAt123 : CuboidObj := mkCube (1, 2, 3) 1 defaultVisual none

/-- A store holding one unit cube at (1, 2, 3). -/
def spaceOneCube : Space := (addCube spaceInit cubeAt123).1

/-- A store holding two unit cubes with the same base vector (1, 2, 3). -/
def spaceTwoCubesSameBase : Space := (addCube spaceOneCube cubeAt123).1

/-- A store holding one unit cube at the origin. -/
def spaceOriginCube : Space :=
  (addCube spaceInit (mkCube (0, 0, 0) 1 defaultVisual none)).1

/-- The origin-cube store after translating the cube by (10, 10, 10). -/
def spaceTranslatedOut : Space :=
  (transformByCoordinate spaceOriginCube [0, 0, 0] (some (10, 10, 10))
    none).1

/-- Ten distinct unit cubes, filling the initial ten-slot buffers. -/
def tenCubes : List CuboidObj :=
  (List.range 10).map (fun i => mkCube ((i : ℤ), 0, 0) 1 defaultVisual none)

/-- The store after ten successful cube additions. -/
def spaceTenCubes : Space :=
  tenCubes.foldl (fun s c => (addCube s c).1) spaceInit

/-- The eleventh cube, whose addition hits the shape-buffer capacity. -/
def eleventhCube : CuboidObj := mkCube (50, 0, 0) 1 defaultVisual none

/-- A store holding one cube named foo. -/
def spaceNamedFoo : Space :=
  (addCube spaceInit (mkCube (0, 0, 0) 1 defaultVisual (some "foo"))).1

/-- A second cube reusing the name foo. -/
def secondFoo : CuboidObj := mkCube (3, 3, 3) 1 defaultVisual (some "foo")

/-- The one-cube store after two mutations in scene 0: id 0 appears
three times in the primitive touch log of scene 0. -/
def spaceMutatedTwice : Space :=
  (mutateByCoordinate
    ((mutateByCoordinate spaceOneCube [1, 2, 3]
      [("alpha", VisValue.vNum 1 1)]).1)
    [1, 2, 3] [("alpha", VisValue.vNum 2 1)]).1

/-- The selector-name field of an Addition entry (None for the other
entry kinds). -/
def additionName : SpaceStateChange → Option String
  | .addition _ nm => nm
  | _ => none

/-- A store with a 4x3x2 composite based at (1, 2, 3). -/
def spaceOneComposite : Space :=
  (addComposite spaceInit (mkComposite (1, 2, 3) 4 3 2 defaultVisual
    none)).1

/-- A store holding one unit cube at (1, 2, 3) and one named two-cube
composite: a scene selection returns both, a name selection returns only
the composite range. -/
def spaceCubeAndNamedComposite : Space :=
  (addComposite spaceOneCube (mkComposite (4, 5, 6) 2 1 1 defaultVisual
    (some "box"))).1

/-- One box extends another when its per-axis minima are no larger and
its per-axis maxima no smaller. -/
def boxExtends (bigger smaller : Box) : Prop :=
  bigger.1.1 ≤ smaller.1.1 ∧ smaller.1.2 ≤ bigger.1.2 ∧
  bigger.2.1.1 ≤ smaller.2.1.1 ∧ smaller.2.1.2 ≤ bigger.2.1.2 ∧
  bigger.2.2.1 ≤ smaller.2.2.1 ∧ smaller.2.2.2 ≤ bigger.2.2.2

/-- The standalone-primitive part a never-advancing cursor can deliver:
the first primitive-touch id, if it is among the matching indices. -/
def headHits (h? : Option ℕ) (m : List ℕ) : List ℕ :=
  match h? with
  | some h => if h ∈ m then [h] else []
  | none => []

/-- The composite part a never-advancing cursor can deliver: the first
recorded composite range, if its start is among the matching indices. -/
def headHitsSlice (g? : Option Slice) (m : List ℕ) : List Slice :=
  match g? with
  | some g => if g.1 ∈ m then [g] else []
  | none => []

/-! Helper lemmas. -/

/-- The metadata column one key of Space._mutate_by_ids starts from:
`self.cuboid_visual_metadata[key]` read before that key's writes. -/
def colOf (s : Space) (k : String) : List VisValue :=
  (lookupA s.cuboidVisualMetadata k).getD []

/-- The column contents written by one key of Space._mutate_by_ids: the
new value at every selected primitive id, then broadcast across every
selected range. -/
def writtenCol (P : List ℕ) (C : List Slice) (v : VisValue)
    (col : List VisValue) : List VisValue :=
  C.foldl (fun c sl => fillRange c sl.1 sl.2 v)
    (P.foldl (fun c pid => c.set pid v) col)

/-- The prior values captured by one key of Space._mutate_by_ids: each
selected primitive's own value, then each selected range's first
member's value. -/
def capturedPriors (P : List ℕ) (C : List Slice)
    (col : List VisValue) : List VisValue :=
  P.map (fun pid => col.getD pid .vNone) ++
    C.map (fun sl => col.getD sl.1 .vNone)

theorem boxExtends_refl (b : Box) : boxExtends b b := by
  unfold boxExtends
  refine ⟨le_refl _, le_refl _, le_refl _, le_refl _, le_refl _, le_refl _⟩

theorem boxExtends_trans {a b c : Box} (h1 : boxExtends a b)
    (h2 : boxExtends b c) : boxExtends a c := by
  unfold boxExtends at *
  exact ⟨le_trans h1.1 h2.1, le_trans h2.2.1 h1.2.1,
    le_trans h1.2.2.1 h2.2.2.1, le_trans h2.2.2.2.1 h1.2.2.2.1,
    le_trans h1.2.2.2.2.1 h2.2.2.2.2.1,
    le_trans h2.2.2.2.2.2 h1.2.2.2.2.2⟩

theorem boxExtends_mergeBox (d b : Box) : boxExtends (mergeBox d b) d := by
  unfold boxExtends mergeBox
  exact ⟨min_le_left _ _, le_max_left _ _, min_le_left _ _,
    le_max_left _ _, min_le_left _ _, le_max_left _ _⟩

theorem updateBounds_dims_extends (s : Space) (a b : ℕ) :
    boxExtends (updateBounds s a b).dims s.dims := by
  unfold updateBounds
  split
  · exact boxExtends_refl _
  · exact boxExtends_mergeBox _ _

theorem updateBounds_only_dims (s : Space) (a b : ℕ) :
    (updateBounds s a b).changelog = s.changelog ∧
    (updateBounds s a b).timeStep = s.timeStep ∧
    (updateBounds s a b).numObjs = s.numObjs ∧
    (updateBounds s a b).cuboidNames = s.cuboidNames := by
  unfold updateBounds
  split
  · exact ⟨rfl, rfl, rfl, rfl⟩
  · exact ⟨rfl, rfl, rfl, rfl⟩

/-- The primitive-add helper never touches the changelog, the time-step,
the object count, or the name index, and its only error is IndexError. -/
theorem addCuboidPrimitive_frame (s : Space) (c : CuboidObj) :
    ((addCuboidPrimitive s c).1).changelog = s.changelog ∧
    ((addCuboidPrimitive s c).1).timeStep = s.timeStep ∧
    ((addCuboidPrimitive s c).1).numObjs = s.numObjs ∧
    ((addCuboidPrimitive s c).1).cuboidNames = s.cuboidNames ∧
    (∀ e, (addCuboidPrimitive s c).2 = .error e → e = .indexError) := by
  unfold addCuboidPrimitive
  dsimp only
  repeat' split
  all_goals refine ⟨rfl, rfl, rfl, rfl, fun e he => ?_⟩
  all_goals first
    | (injection he with h; exact h.symm)
    | exact Except.noConfusion he

/-- The composite-add helper never touches the changelog, the time-step,
the object count, or the name index, and its errors are the broadcast
failure and the style rejection. -/
theorem addCuboidComposite_frame (s : Space) (c : CompositeObj) :
    ((addCuboidComposite s c).1).changelog = s.changelog ∧
    ((addCuboidComposite s c).1).timeStep = s.timeStep ∧
    ((addCuboidComposite s c).1).numObjs = s.numObjs ∧
    ((addCuboidComposite s c).1).cuboidNames = s.cuboidNames ∧
    (∀ e, (addCuboidComposite s c).2 = .error e →
      e = .broadcastError ∨ e = .notImplementedStyle) := by
  unfold addCuboidComposite
  dsimp only
  repeat' split
  all_goals refine ⟨rfl, rfl, rfl, rfl, fun e he => ?_⟩
  all_goals first
    | (injection he with h; exact Or.inl h.symm)
    | (injection he with h; exact Or.inr h.symm)
    | exact Except.noConfusion he

/-- A failed name binding returns the state untouched; a successful one
only appends to the name index. -/
theorem addName_frame (s : Space) (nm : Option String)
    (ids : Option (List ℕ) × Option (List Slice)) :
    (∀ e, (addName s nm ids).2 = some e → (addName s nm ids).1 = s) ∧
    ((addName s nm ids).1).changelog = s.changelog ∧
    ((addName s nm ids).1).timeStep = s.timeStep ∧
    ((addName s nm ids).1).numObjs = s.numObjs ∧
    ((addName s nm ids).1).dims = s.dims := by
  unfold addName
  cases nm with
  | none => exact ⟨fun e he => rfl, rfl, rfl, rfl, rfl⟩
  | some n =>
    dsimp only
    split
    · exact ⟨fun e he => rfl, rfl, rfl, rfl, rfl⟩
    · split
      · exact ⟨fun e he => rfl, rfl, rfl, rfl, rfl⟩
      · exact ⟨fun e he => Option.noConfusion he, rfl, rfl, rfl, rfl⟩

/-- Any failing transform call (through any selector) leaves the whole
store untouched: every error is raised before any mutation. -/
theorem transformGeneric_error (s : Space)
    (sel : Except Err (List ℕ × List Slice)) (t r : Option V3)
    (mk : V3 → String → SpaceStateChange)
    (h : ((transformGeneric s sel t r mk).2).isSome) :
    (transformGeneric s sel t r mk).1 = s := by
  unfold transformGeneric at h ⊢
  rcases sel with e | ⟨P, C⟩
  · rfl
  · rcases t with _ | tv <;> rcases r with _ | rv
    · rfl
    · dsimp only at h ⊢
      split at h
      · simp at h
      · simp at h
    · dsimp only at h ⊢
      split at h
      · simp at h
      · simp at h
    · rfl

/-- A transform call never changes the bounding box, whether it errors,
no-ops, or applies geometry updates. -/
theorem transformGeneric_dims (s : Space)
    (sel : Except Err (List ℕ × List Slice)) (t r : Option V3)
    (mk : V3 → String → SpaceStateChange) :
    ((transformGeneric s sel t r mk).1).dims = s.dims := by
  unfold transformGeneric
  rcases sel with e | ⟨P, C⟩
  · rfl
  · rcases t with _ | tv <;> rcases r with _ | rv
    · rfl
    · dsimp only
      split
      · rfl
      · rfl
    · dsimp only
      split
      · rfl
      · rfl
    · rfl

/-- A mutate call with a single-key delta leaves the whole store
untouched whenever it fails (selector failure or unknown key). -/
theorem mutateGeneric_single_error (s : Space)
    (sel : Except Err (List ℕ × List Slice)) (k : String) (v : VisValue)
    (mk : List (String × List VisValue) → SpaceStateChange)
    (h : ((mutateGeneric s sel [(k, v)] mk).2).isSome) :
    (mutateGeneric s sel [(k, v)] mk).1 = s := by
  unfold mutateGeneric at h ⊢
  rcases sel with e | ⟨P, C⟩
  · rfl
  · dsimp only at h ⊢
    split at h
    · simp at h
    · rename_i hcond
      rw [if_neg hcond]
      simp only [mutateByIds, mutKeys] at h ⊢
      by_cases hk : (lookupA s.cuboidVisualMetadata k).isNone = true
      · rw [if_pos hk] at h ⊢
      · rw [if_neg hk] at h
        simp [mutKeys] at h

/-- A failing snapshot leaves the store untouched. -/
theorem snapshot_error (s : Space) (h : ((snapshot s).2).isSome) :
    (snapshot s).1 = s := by
  unfold snapshot at h ⊢
  dsimp only at h ⊢
  split at h
  · simp at h
  · rename_i hcond
    rw [if_neg hcond]

/-- With at least one primitive already stored, the primitive-add helper
only merges into the running box (it never replaces it). -/
theorem addCuboidPrimitive_dims (s : Space) (c : CuboidObj)
    (h : s.primitiveCounter ≠ 0) :
    ((addCuboidPrimitive s c).1).dims = mergeBox s.dims (boundingBox c) := by
  unfold addCuboidPrimitive
  dsimp only
  rw [if_neg h]
  repeat' split
  all_goals rfl

/-- With at least one primitive already stored, the composite-add helper
only merges into the running box. -/
theorem addCuboidComposite_dims (s : Space) (c : CompositeObj)
    (h : s.primitiveCounter ≠ 0) :
    ∃ b, ((addCuboidComposite s c).1).dims = mergeBox s.dims b := by
  unfold addCuboidComposite
  dsimp only
  rw [if_neg h]
  repeat' split
  all_goals exact ⟨_, rfl⟩

/-- After the first insertion, add_cube only ever extends the box. -/
theorem addCube_dims_extends (s : Space) (c : CuboidObj)
    (h : s.primitiveCounter ≠ 0) :
    boxExtends ((addCube s c).1).dims s.dims := by
  unfold addCube
  rcases hap : addCuboidPrimitive s c with ⟨s1, res⟩
  have hd : s1.dims = mergeBox s.dims (boundingBox c) := by
    have h2 := addCuboidPrimitive_dims s c h
    rw [hap] at h2
    exact h2
  cases res with
  | error e =>
    dsimp only
    rw [hd]
    exact boxExtends_mergeBox _ _
  | ok pid =>
    dsimp only
    rcases han : addName s1 c.name (some [pid], none) with ⟨s2, r2⟩
    have hd2 : s2.dims = s1.dims := by
      have h3 := (addName_frame s1 c.name (some [pid], none)).2.2.2.2
      rw [han] at h3
      exact h3
    cases r2 with
    | some e =>
      dsimp only
      rw [hd2, hd]
      exact boxExtends_mergeBox _ _
    | none =>
      dsimp only
      refine boxExtends_trans (updateBounds_dims_extends _ _ _) ?_
      show boxExtends s2.dims s.dims
      rw [hd2, hd]
      exact boxExtends_mergeBox _ _

/-- After the first insertion, add_composite only ever extends the box. -/
theorem addComposite_dims_extends (s : Space) (c : CompositeObj)
    (h : s.primitiveCounter ≠ 0) :
    boxExtends ((addComposite s c).1).dims s.dims := by
  unfold addComposite
  rcases hap : addCuboidComposite s c with ⟨s1, res⟩
  obtain ⟨b, hd⟩ : ∃ b, s1.dims = mergeBox s.dims b := by
    obtain ⟨b, h2⟩ := addCuboidComposite_dims s c h
    rw [hap] at h2
    exact ⟨b, h2⟩
  cases res with
  | error e =>
    dsimp only
    rw [hd]
    exact boxExtends_mergeBox _ _
  | ok sl =>
    dsimp only
    rcases han : addName s1 c.name (none, some [sl]) with ⟨s2, r2⟩
    have hd2 : s2.dims = s1.dims := by
      have h3 := (addName_frame s1 c.name (none, some [sl])).2.2.2.2
      rw [han] at h3
      exact h3
    cases r2 with
    | some e =>
      dsimp only
      rw [hd2, hd]
      exact boxExtends_mergeBox _ _
    | none =>
      dsimp only
      refine boxExtends_trans (updateBounds_dims_extends _ _ _) ?_
      show boxExtends s2.dims s.dims
      rw [hd2, hd]
      exact boxExtends_mergeBox _ _

/-- When add_cube fails on a duplicate name, the changelog, time-step,
object count and name index still hold their pre-call values. -/
theorem addCube_dup_frame (s : Space) (c : CuboidObj)
    (he : (addCube s c).2 = some .duplicateName) :
    ((addCube s c).1).changelog = s.changelog ∧
    ((addCube s c).1).timeStep = s.timeStep ∧
    ((addCube s c).1).numObjs = s.numObjs ∧
    ((addCube s c).1).cuboidNames = s.cuboidNames := by
  unfold addCube at he ⊢
  rcases hap : addCuboidPrimitive s c with ⟨s1, res⟩
  have hframe := addCuboidPrimitive_frame s c
  rw [hap] at he hframe
  cases res with
  | error e =>
    dsimp only at he
    have h2 : e = Err.indexError := hframe.2.2.2.2 e rfl
    rw [h2] at he
    cases he
  | ok pid =>
    dsimp only at he ⊢
    rcases han : addName s1 c.name (some [pid], none) with ⟨s2, r2⟩
    have hnf := addName_frame s1 c.name (some [pid], none)
    rw [han] at he hnf
    cases r2 with
    | some e =>
      dsimp only at he ⊢
      have hs2 : s2 = s1 := hnf.1 e rfl
      rw [hs2]
      exact ⟨hframe.1, hframe.2.1, hframe.2.2.1, hframe.2.2.2.1⟩
    | none =>
      dsimp only at he
      cases he

/-- When add_composite fails on a duplicate name, the changelog,
time-step, object count and name index still hold their pre-call
values. -/
theorem addComposite_dup_frame (s : Space) (c : CompositeObj)
    (he : (addComposite s c).2 = some .duplicateName) :
    ((addComposite s c).1).changelog = s.changelog ∧
    ((addComposite s c).1).timeStep = s.timeStep ∧
    ((addComposite s c).1).numObjs = s.numObjs ∧
    ((addComposite s c).1).cuboidNames = s.cuboidNames := by
  unfold addComposite at he ⊢
  rcases hap : addCuboidComposite s c with ⟨s1, res⟩
  have hframe := addCuboidComposite_frame s c
  rw [hap] at he hframe
  cases res with
  | error e =>
    dsimp only at he
    have h2 : e = Err.broadcastError ∨ e = Err.notImplementedStyle :=
      hframe.2.2.2.2 e rfl
    rcases h2 with h2 | h2 <;> rw [h2] at he <;> cases he
  | ok sl =>
    dsimp only at he ⊢
    rcases han : addName s1 c.name (none, some [sl]) with ⟨s2, r2⟩
    have hnf := addName_frame s1 c.name (none, some [sl])
    rw [han] at he hnf
    cases r2 with
    | some e =>
      dsimp only at he ⊢
      have hs2 : s2 = s1 := hnf.1 e rfl
      rw [hs2]
      exact ⟨hframe.1, hframe.2.1, hframe.2.2.1, hframe.2.2.2.1⟩
    | none =>
      dsimp only at he
      cases he

/-- The primitive-clone loop only fails with IndexError. -/
theorem clonePrimLoop_err (offset : V3) :
    ∀ (l : List (ℕ × List (String × VisValue))) (s : Space)
      (acc : List ℕ) (e : Err),
      (clonePrimLoop offset s l acc).2 = .error e → e = .indexError := by
  intro l
  induction l with
  | nil =>
    intro s acc e he
    exact Except.noConfusion he
  | cons hd tl ih =>
    obtain ⟨pid, vis⟩ := hd
    intro s acc e he
    unfold clonePrimLoop at he
    dsimp only at he
    rcases hap : addCuboidPrimitive s
        (mkCuboid (addV (convertBasis (baseVertexAt s pid)) offset)
          (s.cuboidShapes.getD pid zeroV3).1
          (s.cuboidShapes.getD pid zeroV3).2.1
          (s.cuboidShapes.getD pid zeroV3).2.2
          (unionA (s.cuboidVisualMetadata.map
            (fun kc => (kc.1, kc.2.getD pid VisValue.vNone))) vis)
          none) with ⟨s1, res⟩
    rw [hap] at he
    cases res with
    | error e2 =>
      dsimp only at he
      have hframe := addCuboidPrimitive_frame s
          (mkCuboid (addV (convertBasis (baseVertexAt s pid)) offset)
            (s.cuboidShapes.getD pid zeroV3).1
            (s.cuboidShapes.getD pid zeroV3).2.1
            (s.cuboidShapes.getD pid zeroV3).2.2
            (unionA (s.cuboidVisualMetadata.map
              (fun kc => (kc.1, kc.2.getD pid VisValue.vNone))) vis)
            none)
      rw [hap] at hframe
      have h2 : e2 = Err.indexError := hframe.2.2.2.2 e2 rfl
      injection he with h3
      rw [← h3, h2]
    | ok newPid =>
      dsimp only at he
      exact ih _ _ _ he

/-- The composite-clone loop only fails with the broadcast error or the
style rejection. -/
theorem cloneCompLoop_err (offset : V3) :
    ∀ (l : List (Slice × List (String × VisValue))) (s : Space)
      (acc : List Slice) (e : Err),
      (cloneCompLoop offset s l acc).2 = .error e →
      e = .broadcastError ∨ e = .notImplementedStyle := by
  intro l
  induction l with
  | nil =>
    intro s acc e he
    exact Except.noConfusion he
  | cons hd tl ih =>
    obtain ⟨sl, vis⟩ := hd
    intro s acc e he
    unfold cloneCompLoop at he
    dsimp only at he
    rcases hap : addCuboidComposite s
        (mkComposite (addV (convertBasis (baseVertexAt s sl.1)) offset)
          (s.cuboidShapes.getD sl.1 zeroV3).1.toNat
          (s.cuboidShapes.getD sl.1 zeroV3).2.1.toNat
          (s.cuboidShapes.getD sl.1 zeroV3).2.2.toNat
          (unionA (s.cuboidVisualMetadata.map
            (fun kc => (kc.1, kc.2.getD sl.1 VisValue.vNone))) vis)
          none) with ⟨s1, res⟩
    rw [hap] at he
    cases res with
    | error e2 =>
      dsimp only at he
      have hframe := addCuboidComposite_frame s
          (mkComposite (addV (convertBasis (baseVertexAt s sl.1)) offset)
            (s.cuboidShapes.getD sl.1 zeroV3).1.toNat
            (s.cuboidShapes.getD sl.1 zeroV3).2.1.toNat
            (s.cuboidShapes.getD sl.1 zeroV3).2.2.toNat
            (unionA (s.cuboidVisualMetadata.map
              (fun kc => (kc.1, kc.2.getD sl.1 VisValue.vNone))) vis)
            none)
      rw [hap] at hframe
      have h2 := hframe.2.2.2.2 e2 rfl
      injection he with h3
      rw [← h3]
      exact h2
    | ok newSl =>
      dsimp only at he
      exact ih _ _ _ he

/-- Every failure of the clone tail other than a capacity or style
failure is raised before any store mutation. -/
theorem cloneWithSelection_validation_error (s : Space) (off : V3)
    (sel : Except Err (List ℕ × List Slice))
    (kw : List (String × CloneVal)) (e : Err)
    (he : (cloneWithSelection s off sel kw).2 = some e)
    (h1 : e ≠ .indexError) (h2 : e ≠ .broadcastError)
    (h3 : e ≠ .notImplementedStyle) :
    (cloneWithSelection s off sel kw).1 = s := by
  unfold cloneWithSelection at he ⊢
  rcases sel with e0 | ⟨P, C⟩
  · rfl
  · dsimp only at he ⊢
    split at he
    · cases he
    · rename_i hcond
      rw [if_neg hcond]
      rcases hint : interleaveFrom s kw (List.range (P.length + C.length))
          with e1 | inter
      · rw [hint] at he
      · rw [hint] at he
        dsimp only at he ⊢
        rcases hpl : clonePrimLoop off s (P.zip inter) [] with ⟨s1, r1⟩
        rw [hpl] at he
        cases r1 with
        | error e1 =>
          dsimp only at he
          injection he with h4
          have h5 : (clonePrimLoop off s (P.zip inter) []).2 =
              Except.error e1 := by rw [hpl]
          exact absurd (h4 ▸ clonePrimLoop_err off _ _ _ _ h5) h1
        | ok newP =>
          dsimp only at he ⊢
          rcases hcl : cloneCompLoop off s1 (C.zip inter) [] with ⟨s2, r2⟩
          rw [hcl] at he
          cases r2 with
          | error e2 =>
            dsimp only at he
            have h7 : (cloneCompLoop off s1 (C.zip inter) []).2 =
                Except.error e2 := by rw [hcl]
            have h5 := cloneCompLoop_err off _ _ _ _ h7
            injection he with h4
            rcases h4 ▸ h5 with h6 | h6
            · exact absurd h6 h2
            · exact absurd h6 h3
          | ok newC =>
            dsimp only at he
            cases he

/-! Claim theorems. -/

/-- C1 (amended): failing validation of a mutate call with a single-key
delta, of a transform call, of a clone call (other than its capacity and
style failures, which occur mid-mutation), or of a snapshot, leaves every
store component unchanged and appends no changelog entry; an add call
that fails on a duplicate name leaves the changelog, time-step, object
count and name index unchanged (its other components have already been
updated when the error is raised). -/
theorem C1_amended_validation_failure_state (s : Space) :
    (∀ (coord : List ℤ) (t r : Option V3),
      ((transformByCoordinate s coord t r).2).isSome →
      (transformByCoordinate s coord t r).1 = s) ∧
    (∀ (nm : String) (t r : Option V3),
      ((transformByName s nm t r).2).isSome →
      (transformByName s nm t r).1 = s) ∧
    (∀ (ts : ℕ) (t r : Option V3),
      ((transformByTimestep s ts t r).2).isSome →
      (transformByTimestep s ts t r).1 = s) ∧
    (∀ (sc : ℕ) (t r : Option V3),
      ((transformByScene s sc t r).2).isSome →
      (transformByScene s sc t r).1 = s) ∧
    (∀ (coord : List ℤ) (k : String) (v : VisValue),
      ((mutateByCoordinate s coord [(k, v)]).2).isSome →
      (mutateByCoordinate s coord [(k, v)]).1 = s) ∧
    (∀ (nm : String) (k : String) (v : VisValue),
      ((mutateByName s nm [(k, v)]).2).isSome →
      (mutateByName s nm [(k, v)]).1 = s) ∧
    (∀ (ts : ℕ) (k : String) (v : VisValue),
      ((mutateByTimestep s ts [(k, v)]).2).isSome →
      (mutateByTimestep s ts [(k, v)]).1 = s) ∧
    (∀ (sc : ℕ) (k : String) (v : VisValue),
      ((mutateByScene s sc [(k, v)]).2).isSome →
      (mutateByScene s sc [(k, v)]).1 = s) ∧
    (∀ (off : V3) (co : Option (List ℤ)) (nm : Option String)
      (ts sc : Option ℕ) (kw : List (String × CloneVal)) (e : Err),
      (cloneByOffset s off co nm ts sc kw).2 = some e →
      e ≠ .indexError → e ≠ .broadcastError → e ≠ .notImplementedStyle →
      (cloneByOffset s off co nm ts sc kw).1 = s) ∧
    (((snapshot s).2).isSome → (snapshot s).1 = s) ∧
    (∀ c : CuboidObj, (addCube s c).2 = some .duplicateName →
      ((addCube s c).1).changelog = s.changelog ∧
      ((addCube s c).1).timeStep = s.timeStep ∧
      ((addCube s c).1).numObjs = s.numObjs ∧
      ((addCube s c).1).cuboidNames = s.cuboidNames) ∧
    (∀ c : CompositeObj, (addComposite s c).2 = some .duplicateName →
      ((addComposite s c).1).changelog = s.changelog ∧
      ((addComposite s c).1).timeStep = s.timeStep ∧
      ((addComposite s c).1).numObjs = s.numObjs ∧
      ((addComposite s c).1).cuboidNames = s.cuboidNames) := by
  refine ⟨?_, ?_, ?_, ?_, ?_, ?_, ?_, ?_, ?_, ?_, ?_, ?_⟩
  · intro coord t r h
    exact transformGeneric_error s _ t r _ h
  · intro nm t r h
    exact transformGeneric_error s _ t r _ h
  · intro ts t r h
    exact transformGeneric_error s _ t r _ h
  · intro sc t r h
    exact transformGeneric_error s _ t r _ h
  · intro coord k v h
    exact mutateGeneric_single_error s _ k v _ h
  · intro nm k v h
    exact mutateGeneric_single_error s _ k v _ h
  · intro ts k v h
    exact mutateGeneric_single_error s _ k v _ h
  · intro sc k v h
    exact mutateGeneric_single_error s _ k v _ h
  · intro off co nm ts sc kw e he h1 h2 h3
    unfold cloneByOffset at he ⊢
    rcases co with _ | c <;> rcases nm with _ | n <;> rcases ts with _ | t
        <;> rcases sc with _ | w
    all_goals first
      | rfl
      | exact cloneWithSelection_validation_error _ _ _ _ _ he h1 h2 h3
  · intro h
    exact snapshot_error s h
  · intro c he
    exact addCube_dup_frame s c he
  · intro c he
    exact addComposite_dup_frame s c he

/-- C1 witness: a malformed (1-dimensional) coordinate makes a transform
call fail, and the state it returns is exactly the input state. -/
theorem C1_amended_witness :
    ((transformByCoordinate spaceInit [0] none none).2).isSome = true ∧
    (transformByCoordinate spaceInit [0] none none).1 = spaceInit :=
  ⟨by decide,
   (C1_amended_validation_failure_state spaceInit).1 [0] none none
     (by decide)⟩

/-- C1 counterexample: adding a second cube under an already-bound name
raises, but at that point the primitive counter and the shape buffer
have already been updated, so the store is not unchanged as the claim
requires. -/
theorem C1_counterexample :
    (addCube spaceNamedFoo secondFoo).2 = some Err.duplicateName ∧
    (addCube spaceNamedFoo secondFoo).1.primitiveCounter ≠
      spaceNamedFoo.primitiveCounter ∧
    (addCube spaceNamedFoo secondFoo).1.cuboidShapes ≠
      spaceNamedFoo.cuboidShapes := by decide

/-- C2 counterexample: after translating the origin cube by (10,10,10),
the box still reads ((0,1),(0,1),(0,1)) while the cube's base vertex is
at (10,10,10): the box does not contain the union of occupied
positions, and no merge of the touched subset happened. -/
theorem C2_counterexample :
    spaceTranslatedOut.dims = ((0, 1), (0, 1), (0, 1)) ∧
    baseVertexAt spaceTranslatedOut 0 = (10, 10, 10) ∧
    spaceTranslatedOut.dims.1.2 < (baseVertexAt spaceTranslatedOut 0).1 := by
  decide

/-- C3: after ten cube additions both buffers are full at their initial
ten slots; the eleventh addition doubles the coordinate buffer but the
shape buffer is never resized on the primitive path, so the shape write
raises IndexError — appends can fail for capacity reasons. -/
theorem C3_eleventh_add_fails_on_shape_capacity :
    spaceTenCubes.primitiveCounter = 10 ∧
    spaceTenCubes.cuboidShapes.length = 10 ∧
    spaceTenCubes.cuboidCoordinates.length = 10 ∧
    (addCube spaceTenCubes eleventhCube).2 = some Err.indexError ∧
    ((addCube spaceTenCubes eleventhCube).1).cuboidCoordinates.length = 20 ∧
    ((addCube spaceTenCubes eleventhCube).1).cuboidShapes.length = 10 := by
  decide

/-- C4: reflecting by the all-ones identity vector is treated as
effectful (np.any of all-ones is truthy): the call appends a reflection
Transform entry and advances the time-step, contradicting the no-op the
claim and test_space_transforms_nothing_with_trivial_transform state. -/
theorem C4_identity_reflection_is_effectful :
    spaceOneCube.changelog.length = 1 ∧
    spaceOneCube.timeStep = 1 ∧
    ((transformByScene spaceOneCube 0 none (some (1, 1, 1))).1).changelog =
      spaceOneCube.changelog ++
        [.transform (1, 1, 1) "reflection" none none none (some 0)] ∧
    ((transformByScene spaceOneCube 0 none (some (1, 1, 1))).1).timeStep = 2 ∧
    (transformByScene spaceOneCube 0 none (some (1, 1, 1))).2 = none := by
  decide

/-- C6 counterexample: with two standalone cubes sharing the base vector
(1,2,3), both ids 0 and 1 match the coordinate and both are recorded as
primitive touches, yet the selection returns only id 0 — the claim's
"exactly the standalone primitives whose base vertex equals the
coordinate" fails. -/
theorem C6_counterexample :
    selectByCoordinate spaceTwoCubesSameBase [1, 2, 3] =
      Except.ok ([0], []) ∧
    baseVertexAt spaceTwoCubesSameBase 1 = convertBasis (1, 2, 3) ∧
    1 < spaceTwoCubesSameBase.primitiveCounter ∧
    (1 : ℕ) ∈ primitivesSeq spaceTwoCubesSameBase.cuboidIndex ∧
    (1 : ℕ) ∉ ([0] : List ℕ) := by decide

/-- C8: the transform methods accept only translate and reflect; passing
a scale keyword raises TypeError at the call boundary (before any
validation or mutation), while the test-suite expects the documented
ValueError taxonomy for scale (positive components, primitive-only). -/
theorem C8_scale_keyword_raises_type_error :
    (transformByCoordinateKw spaceOneComposite [1, 2, 3] none none
      (some (2, 2, 2))).2 = some Err.typeErrorUnexpectedKwarg ∧
    (transformByCoordinateKw spaceOneComposite [1, 2, 3] none none
      (some (2, 2, 2))).1 = spaceOneComposite :=
  ⟨rfl, rfl⟩

/-- C9: for every store and every valid scene id, scene-based selection
returns each primitive id at most once and each composite range at most
once (ranges deduplicated by their (start, stop) pair), and exactly the
ids and ranges touched in that scene. -/
theorem C9_scene_selection_deduplicates (s : Space) (sc : ℕ)
    (h : sc ≤ s.sceneCounter) :
    selectByScene s sc =
      Except.ok (sortNat (getPrimitivesByScene s.cuboidIndex sc).dedup,
        sortSlices (getCompositesByScene s.cuboidIndex sc).dedup) ∧
    (sortNat (getPrimitivesByScene s.cuboidIndex sc).dedup).Nodup ∧
    (sortSlices (getCompositesByScene s.cuboidIndex sc).dedup).Nodup ∧
    (∀ i, i ∈ sortNat (getPrimitivesByScene s.cuboidIndex sc).dedup ↔
      i ∈ getPrimitivesByScene s.cuboidIndex sc) ∧
    (∀ r, r ∈ sortSlices (getCompositesByScene s.cuboidIndex sc).dedup ↔
      r ∈ getCompositesByScene s.cuboidIndex sc) := by
  refine ⟨?_, ?_, ?_, ?_, ?_⟩
  · unfold selectByScene
    rw [if_neg (by omega)]
  · exact ((List.perm_insertionSort _ _).nodup_iff).mpr
      (List.nodup_dedup _)
  · exact ((List.perm_insertionSort _ _).nodup_iff).mpr
      (List.nodup_dedup _)
  · intro i
    exact ((List.perm_insertionSort _ _).mem_iff).trans List.mem_dedup
  · intro r
    exact ((List.perm_insertionSort _ _).mem_iff).trans List.mem_dedup

/-- C9 witness: scene 0 of the twice-mutated store holds three touches of
id 0, yet the selection reports it once. -/
theorem C9_witness :
    ((0 ≤ spaceMutatedTwice.sceneCounter) ∧
     (getPrimitivesByScene spaceMutatedTwice.cuboidIndex 0).length = 3) ∧
    selectByScene spaceMutatedTwice 0 =
      Except.ok (sortNat
        (getPrimitivesByScene spaceMutatedTwice.cuboidIndex 0).dedup,
        sortSlices
          (getCompositesByScene spaceMutatedTwice.cuboidIndex 0).dedup) ∧
    (sortNat
      (getPrimitivesByScene spaceMutatedTwice.cuboidIndex 0).dedup).Nodup :=
  ⟨by decide,
   (C9_scene_selection_deduplicates spaceMutatedTwice 0 (by decide)).1,
   (C9_scene_selection_deduplicates spaceMutatedTwice 0 (by decide)).2.1⟩

/-! Changelog-extension lemmas, one per operation, for the Addition-name
invariant. -/

theorem mutKeys_changelog (P : List ℕ) (C : List Slice) :
    ∀ (kwargs : Kwargs) (s : Space) (acc : List (String × List VisValue)),
      ((mutKeys P C s kwargs acc).1).changelog = s.changelog := by
  intro kwargs
  induction kwargs with
  | nil =>
    intro s acc
    rfl
  | cons kv rest ih =>
    intro s acc
    obtain ⟨k, v⟩ := kv
    unfold mutKeys
    dsimp only
    split
    · rfl
    · exact ih _ _

theorem mutateByIds_changelog (s : Space) (P : List ℕ) (C : List Slice)
    (kwargs : Kwargs) :
    ((mutateByIds s P C kwargs).1).changelog = s.changelog := by
  unfold mutateByIds
  rcases hmk : mutKeys P C s kwargs [] with ⟨s1, r⟩
  have h1 : s1.changelog = s.changelog := by
    have h2 := mutKeys_changelog P C kwargs s []
    rw [hmk] at h2
    exact h2
  cases r with
  | error e =>
    exact h1
  | ok before =>
    exact h1

theorem mutateGeneric_changelog (s : Space)
    (sel : Except Err (List ℕ × List Slice)) (kwargs : Kwargs)
    (mk : List (String × List VisValue) → SpaceStateChange)
    (hmk : ∀ b, additionName (mk b) = none) :
    ∃ t, ((mutateGeneric s sel kwargs mk).1).changelog =
      s.changelog ++ t ∧ ∀ e ∈ t, additionName e = none := by
  unfold mutateGeneric
  rcases sel with e | ⟨P, C⟩
  · exact ⟨[], by simp, by simp⟩
  · dsimp only
    split
    · exact ⟨[], by simp, by simp⟩
    · rcases hmi : mutateByIds s P C kwargs with ⟨s1, r⟩
      have h1 : s1.changelog = s.changelog := by
        have h2 := mutateByIds_changelog s P C kwargs
        rw [hmi] at h2
        exact h2
      cases r with
      | error e =>
        exact ⟨[], by simpa using h1, by simp⟩
      | ok before =>
        refine ⟨[mk before], ?_, ?_⟩
        · dsimp only
          rw [h1]
        · intro e he
          rw [List.mem_singleton] at he
          rw [he]
          exact hmk before

theorem transformByIds_changelog (s : Space) (P : List ℕ)
    (C : List Slice) (f : V3 → V3) :
    (transformByIds s P C f).changelog = s.changelog := rfl

theorem transformGeneric_changelog (s : Space)
    (sel : Except Err (List ℕ × List Slice)) (t r : Option V3)
    (mk : V3 → String → SpaceStateChange)
    (hmk : ∀ v n, additionName (mk v n) = none) :
    ∃ tl, ((transformGeneric s sel t r mk).1).changelog =
      s.changelog ++ tl ∧ ∀ e ∈ tl, additionName e = none := by
  unfold transformGeneric
  rcases sel with e | ⟨P, C⟩
  · exact ⟨[], by simp, by simp⟩
  · rcases t with _ | tv <;> rcases r with _ | rv
    · exact ⟨[], by simp, by simp⟩
    · dsimp only
      split
      · exact ⟨[], by simp, by simp⟩
      · refine ⟨[mk rv "reflection"], ?_, ?_⟩
        · rw [transformByIds_changelog]
        · intro e he
          rw [List.mem_singleton] at he
          rw [he]
          exact hmk _ _
    · dsimp only
      split
      · exact ⟨[], by simp, by simp⟩
      · refine ⟨[mk (negV tv) "translation"], ?_, ?_⟩
        · rw [transformByIds_changelog]
        · intro e he
          rw [List.mem_singleton] at he
          rw [he]
          exact hmk _ _
    · exact ⟨[], by simp, by simp⟩

theorem addCube_changelog (s : Space) (c : CuboidObj) :
    ∃ t, ((addCube s c).1).changelog = s.changelog ++ t ∧
      ∀ e ∈ t, additionName e = none := by
  unfold addCube
  rcases hap : addCuboidPrimitive s c with ⟨s1, res⟩
  have h1 : s1.changelog = s.changelog := by
    have h2 := (addCuboidPrimitive_frame s c).1
    rw [hap] at h2
    exact h2
  cases res with
  | error e =>
    exact ⟨[], by simpa using h1, by simp⟩
  | ok pid =>
    dsimp only
    rcases han : addName s1 c.name (some [pid], none) with ⟨s2, r2⟩
    have h3 : s2.changelog = s1.changelog := by
      have h4 := (addName_frame s1 c.name (some [pid], none)).2.1
      rw [han] at h4
      exact h4
    cases r2 with
    | some e =>
      exact ⟨[], by simp [h3, h1], by simp⟩
    | none =>
      refine ⟨[SpaceStateChange.addition s2.timeStep none], ?_, ?_⟩
      · rw [(updateBounds_only_dims _ _ _).1]
        dsimp only
        rw [h3, h1]
      · intro e he
        rw [List.mem_singleton] at he
        rw [he]
        rfl

theorem addComposite_changelog (s : Space) (c : CompositeObj) :
    ∃ t, ((addComposite s c).1).changelog = s.changelog ++ t ∧
      ∀ e ∈ t, additionName e = none := by
  unfold addComposite
  rcases hap : addCuboidComposite s c with ⟨s1, res⟩
  have h1 : s1.changelog = s.changelog := by
    have h2 := (addCuboidComposite_frame s c).1
    rw [hap] at h2
    exact h2
  cases res with
  | error e =>
    exact ⟨[], by simpa using h1, by simp⟩
  | ok sl =>
    dsimp only
    rcases han : addName s1 c.name (none, some [sl]) with ⟨s2, r2⟩
    have h3 : s2.changelog = s1.changelog := by
      have h4 := (addName_frame s1 c.name (none, some [sl])).2.1
      rw [han] at h4
      exact h4
    cases r2 with
    | some e =>
      exact ⟨[], by simp [h3, h1], by simp⟩
    | none =>
      refine ⟨[SpaceStateChange.addition s2.timeStep none], ?_, ?_⟩
      · rw [(updateBounds_only_dims _ _ _).1]
        dsimp only
        rw [h3, h1]
      · intro e he
        rw [List.mem_singleton] at he
        rw [he]
        rfl

theorem clonePrimLoop_changelog (offset : V3) :
    ∀ (l : List (ℕ × List (String × VisValue))) (s : Space)
      (acc : List ℕ),
      ((clonePrimLoop offset s l acc).1).changelog = s.changelog := by
  intro l
  induction l with
  | nil =>
    intro s acc
    rfl
  | cons hd tl ih =>
    obtain ⟨pid, vis⟩ := hd
    intro s acc
    unfold clonePrimLoop
    dsimp only
    rcases hap : addCuboidPrimitive s
        (mkCuboid (addV (convertBasis (baseVertexAt s pid)) offset)
          (s.cuboidShapes.getD pid zeroV3).1
          (s.cuboidShapes.getD pid zeroV3).2.1
          (s.cuboidShapes.getD pid zeroV3).2.2
          (unionA (s.cuboidVisualMetadata.map
            (fun kc => (kc.1, kc.2.getD pid VisValue.vNone))) vis)
          none) with ⟨s1, res⟩
    have h1 : s1.changelog = s.changelog := by
      have h2 := (addCuboidPrimitive_frame s
        (mkCuboid (addV (convertBasis (baseVertexAt s pid)) offset)
          (s.cuboidShapes.getD pid zeroV3).1
          (s.cuboidShapes.getD pid zeroV3).2.1
          (s.cuboidShapes.getD pid zeroV3).2.2
          (unionA (s.cuboidVisualMetadata.map
            (fun kc => (kc.1, kc.2.getD pid VisValue.vNone))) vis)
          none)).1
      rw [hap] at h2
      exact h2
    rw [hap]
    cases res with
    | error e =>
      exact h1
    | ok newPid =>
      dsimp only
      rw [ih _ _]
      exact h1

theorem cloneCompLoop_changelog (offset : V3) :
    ∀ (l : List (Slice × List (String × VisValue))) (s : Space)
      (acc : List Slice),
      ((cloneCompLoop offset s l acc).1).changelog = s.changelog := by
  intro l
  induction l with
  | nil =>
    intro s acc
    rfl
  | cons hd tl ih =>
    obtain ⟨sl, vis⟩ := hd
    intro s acc
    unfold cloneCompLoop
    dsimp only
    rcases hap : addCuboidComposite s
        (mkComposite (addV (convertBasis (baseVertexAt s sl.1)) offset)
          (s.cuboidShapes.getD sl.1 zeroV3).1.toNat
          (s.cuboidShapes.getD sl.1 zeroV3).2.1.toNat
          (s.cuboidShapes.getD sl.1 zeroV3).2.2.toNat
          (unionA (s.cuboidVisualMetadata.map
            (fun kc => (kc.1, kc.2.getD sl.1 VisValue.vNone))) vis)
          none) with ⟨s1, res⟩
    have h1 : s1.changelog = s.changelog := by
      have h2 := (addCuboidComposite_frame s
        (mkComposite (addV (convertBasis (baseVertexAt s sl.1)) offset)
          (s.cuboidShapes.getD sl.1 zeroV3).1.toNat
          (s.cuboidShapes.getD sl.1 zeroV3).2.1.toNat
          (s.cuboidShapes.getD sl.1 zeroV3).2.2.toNat
          (unionA (s.cuboidVisualMetadata.map
            (fun kc => (kc.1, kc.2.getD sl.1 VisValue.vNone))) vis)
          none)).1
      rw [hap] at h2
      exact h2
    rw [hap]
    cases res with
    | error e =>
      exact h1
    | ok newSl =>
      dsimp only
      rw [ih _ _]
      exact h1

theorem cloneWithSelection_changelog (s : Space) (off : V3)
    (sel : Except Err (List ℕ × List Slice))
    (kw : List (String × CloneVal)) :
    ∃ t, ((cloneWithSelection s off sel kw).1).changelog =
      s.changelog ++ t ∧ ∀ e ∈ t, additionName e = none := by
  unfold cloneWithSelection
  rcases sel with e0 | ⟨P, C⟩
  · exact ⟨[], by simp, by simp⟩
  · dsimp only
    split
    · exact ⟨[], by simp, by simp⟩
    · rcases hint : interleaveFrom s kw (List.range (P.length + C.length))
          with e1 | inter
      · exact ⟨[], by simp, by simp⟩
      · dsimp only
        rcases hpl : clonePrimLoop off s (P.zip inter) [] with ⟨s1, r1⟩
        have h1 : s1.changelog = s.changelog := by
          have h2 := clonePrimLoop_changelog off (P.zip inter) s []
          rw [hpl] at h2
          exact h2
        cases r1 with
        | error e =>
          exact ⟨[], by simpa using h1, by simp⟩
        | ok newP =>
          dsimp only
          rcases hcl : cloneCompLoop off s1 (C.zip inter) [] with ⟨s2, r2⟩
          have h3 : s2.changelog = s1.changelog := by
            have h4 := cloneCompLoop_changelog off (C.zip inter) s1 []
            rw [hcl] at h4
            exact h4
          cases r2 with
          | error e =>
            exact ⟨[], by simp [h3, h1], by simp⟩
          | ok newC =>
            refine ⟨[SpaceStateChange.addition s2.timeStep none], ?_, ?_⟩
            · rw [(updateBounds_only_dims _ _ _).1]
              dsimp only
              rw [h3, h1]
            · intro e he
              rw [List.mem_singleton] at he
              rw [he]
              rfl

theorem snapshot_changelog (s : Space) :
    ((snapshot s).1).changelog = s.changelog := by
  unfold snapshot
  dsimp only
  split
  · rfl
  · rfl

theorem applyOp_changelog (s : Space) (op : Op) :
    ∃ t, ((applyOp s op).changelog = s.changelog ++ t) ∧
      ∀ e ∈ t, additionName e = none := by
  cases op with
  | opAddCube c => exact addCube_changelog s c
  | opAddCuboid c => exact addCube_changelog s c
  | opAddComposite c => exact addComposite_changelog s c
  | opMutateByCoordinate co kw =>
    exact mutateGeneric_changelog s _ kw _ (fun b => rfl)
  | opMutateByName nm kw =>
    exact mutateGeneric_changelog s _ kw _ (fun b => rfl)
  | opMutateByTimestep ts kw =>
    exact mutateGeneric_changelog s _ kw _ (fun b => rfl)
  | opMutateByScene sc kw =>
    exact mutateGeneric_changelog s _ kw _ (fun b => rfl)
  | opTransformByCoordinate co t r =>
    exact transformGeneric_changelog s _ t r _ (fun v n => rfl)
  | opTransformByName nm t r =>
    exact transformGeneric_changelog s _ t r _ (fun v n => rfl)
  | opTransformByTimestep ts t r =>
    exact transformGeneric_changelog s _ t r _ (fun v n => rfl)
  | opTransformByScene sc t r =>
    exact transformGeneric_changelog s _ t r _ (fun v n => rfl)
  | opCloneByOffset off co nm ts sc kw =>
    unfold applyOp cloneByOffset
    rcases co with _ | c <;> rcases nm with _ | n <;> rcases ts with _ | t
        <;> rcases sc with _ | w
    all_goals first
      | exact cloneWithSelection_changelog s off _ kw
      | exact ⟨[], by simp, by simp⟩
  | opSnapshot =>
    exact ⟨[], by simp [applyOp, snapshot_changelog], by simp⟩

/-- C10: over every sequence of public calls against a fresh store,
every Addition entry ever appended to the changelog carries name None —
names are never recorded in Addition entries, even for named objects. -/
theorem C10_addition_entries_always_unnamed (ops : List Op)
    (e : SpaceStateChange) (he : e ∈ (runOps ops).changelog) :
    additionName e = none := by
  suffices h : ∀ (l : List Op) (s : Space),
      (∀ x ∈ s.changelog, additionName x = none) →
      ∀ x ∈ (l.foldl applyOp s).changelog, additionName x = none by
    exact h ops spaceInit (by intro x hx; cases hx) e he
  intro l
  induction l with
  | nil =>
    intro s hs x hx
    exact hs x hx
  | cons op rest ih =>
    intro s hs x hx
    refine ih (applyOp s op) ?_ x hx
    intro y hy
    obtain ⟨t, ht, hok⟩ := applyOp_changelog s op
    rw [ht] at hy
    rcases List.mem_append.mp hy with h2 | h2
    · exact hs y h2
    · exact hok y h2

/-- C10 witness: adding a named cube appends Addition(0, None); the name
foo reaches only the name index. -/
theorem C10_witness :
    (SpaceStateChange.addition 0 none ∈
      (runOps [Op.opAddCube (mkCube (0, 0, 0) 1 defaultVisual
        (some "foo"))]).changelog) ∧
    additionName (SpaceStateChange.addition 0 none) = none :=
  ⟨by decide,
   C10_addition_entries_always_unnamed
     [Op.opAddCube (mkCube (0, 0, 0) 1 defaultVisual (some "foo"))]
     (SpaceStateChange.addition 0 none) (by decide)⟩

/-- The classification fold of coordinate selection: because each cursor
read draws a fresh iterator, the cursors are constant at the first log
entries, and at most one index can consume each. -/
theorem selFold (s : Space) :
    ∀ (m : List ℕ), m.Nodup → ∀ (accP : List ℕ) (accC : List Slice),
      m.foldl (selCursorStep s)
        ((primitivesSeq s.cuboidIndex).head?,
         (compositesSeq s.cuboidIndex).head?, accP, accC) =
      ((primitivesSeq s.cuboidIndex).head?,
       (compositesSeq s.cuboidIndex).head?,
       accP ++ headHits (primitivesSeq s.cuboidIndex).head? m,
       accC ++ headHitsSlice (compositesSeq s.cuboidIndex).head? m) := by
  intro m
  induction m with
  | nil =>
    intro _ accP accC
    simp [headHits, headHitsSlice]
    cases (primitivesSeq s.cuboidIndex).head? <;>
      cases (compositesSeq s.cuboidIndex).head? <;> simp
  | cons idx rest ih =>
    intro hnd accP accC
    obtain ⟨hnotin, hndrest⟩ := List.nodup_cons.mp hnd
    rw [List.foldl_cons]
    have hstep : selCursorStep s
        ((primitivesSeq s.cuboidIndex).head?,
         (compositesSeq s.cuboidIndex).head?, accP, accC) idx =
        ((primitivesSeq s.cuboidIndex).head?,
         (compositesSeq s.cuboidIndex).head?,
         accP ++ headHits (primitivesSeq s.cuboidIndex).head? [idx],
         accC ++ headHitsSlice (compositesSeq s.cuboidIndex).head? [idx])
        := by
      unfold selCursorStep headHits headHitsSlice
      cases hh : (primitivesSeq s.cuboidIndex).head? <;>
        cases hc : (compositesSeq s.cuboidIndex).head? <;>
        simp [List.mem_singleton] <;> split_ifs <;> simp_all
    rw [hstep, ih hndrest]
    have hp : headHits (primitivesSeq s.cuboidIndex).head? [idx] ++
        headHits (primitivesSeq s.cuboidIndex).head? rest =
        headHits (primitivesSeq s.cuboidIndex).head? (idx :: rest) := by
      unfold headHits
      cases (primitivesSeq s.cuboidIndex).head? with
      | none => simp
      | some h =>
        by_cases hhi : h = idx
        · subst hhi
          simp [hnotin, List.mem_cons]
        · simp [hhi, List.mem_cons, List.mem_singleton]
    have hcsl : headHitsSlice (compositesSeq s.cuboidIndex).head? [idx] ++
        headHitsSlice (compositesSeq s.cuboidIndex).head? rest =
        headHitsSlice (compositesSeq s.cuboidIndex).head? (idx :: rest)
        := by
      unfold headHitsSlice
      cases (compositesSeq s.cuboidIndex).head? with
      | none => simp
      | some g =>
        dsimp only
        by_cases hgi : g.1 = idx
        · rw [hgi]
          simp [hnotin, List.mem_cons]
        · simp [hgi, List.mem_cons, List.mem_singleton]
    rw [List.append_assoc, List.append_assoc, hp, hcsl]

/-- C6 (amended): coordinate selection validates that the input is 3D,
converts the basis and scans for matching base vertices, but the
classification cursors never advance (each read draws a fresh iterator
over the temporal index); the selection therefore returns at most one
standalone primitive — the first-ever primitive touch's id, when its
base vertex matches — and at most one composite — the first-ever
recorded composite range, when its start's base vertex matches. -/
theorem C6_amended_selection_uses_only_first_cursor_entries (s : Space)
    (coordinate : List ℤ) (h3 : coordinate.length = 3) :
    selectByCoordinate s coordinate =
      Except.ok
        (headHits (primitivesSeq s.cuboidIndex).head?
          (matchingBaseVectors s (convertBasis
            (coordinate.getD 0 0, coordinate.getD 1 0,
             coordinate.getD 2 0))),
         headHitsSlice (compositesSeq s.cuboidIndex).head?
          (matchingBaseVectors s (convertBasis
            (coordinate.getD 0 0, coordinate.getD 1 0,
             coordinate.getD 2 0)))) ∧
    (∀ h? m, (headHits h? m).length ≤ 1) ∧
    (∀ g? m, (headHitsSlice g? m).length ≤ 1) := by
  refine ⟨?_, ?_, ?_⟩
  · unfold selectByCoordinate
    rw [if_neg (by simp [h3])]
    dsimp only
    have hnd : (matchingBaseVectors s (convertBasis
        (coordinate.getD 0 0, coordinate.getD 1 0,
         coordinate.getD 2 0))).Nodup := by
      unfold matchingBaseVectors
      exact List.Nodup.filter _ (List.nodup_range _)
    rw [selFold s _ hnd [] []]
    simp
  · intro h? m
    unfold headHits
    cases h? with
    | none => simp
    | some h =>
      by_cases hm : h ∈ m <;> simp [hm]
  · intro g? m
    unfold headHitsSlice
    cases g? with
    | none => simp
    | some g =>
      by_cases hm : g.1 ∈ m <;> simp [hm]

/-- C6 witness: the two-cube store with both bases at (1,2,3), where the
characterization yields exactly the singleton selection. -/
theorem C6_amended_witness :
    (([1, 2, 3] : List ℤ).length = 3) ∧
    selectByCoordinate spaceTwoCubesSameBase [1, 2, 3] =
      Except.ok
        (headHits (primitivesSeq spaceTwoCubesSameBase.cuboidIndex).head?
          (matchingBaseVectors spaceTwoCubesSameBase (convertBasis
            (([1, 2, 3] : List ℤ).getD 0 0, ([1, 2, 3] : List ℤ).getD 1 0,
             ([1, 2, 3] : List ℤ).getD 2 0))),
         headHitsSlice
          (compositesSeq spaceTwoCubesSameBase.cuboidIndex).head?
          (matchingBaseVectors spaceTwoCubesSameBase (convertBasis
            (([1, 2, 3] : List ℤ).getD 0 0, ([1, 2, 3] : List ℤ).getD 1 0,
             ([1, 2, 3] : List ℤ).getD 2 0)))) :=
  ⟨by decide,
   (C6_amended_selection_uses_only_first_cursor_entries
     spaceTwoCubesSameBase [1, 2, 3] (by decide)).1⟩

/-! Indexing lemmas for buffer writes. -/

theorem getD_set_ne {α : Type} (l : List α) (i j : ℕ) (v d : α)
    (h : i ≠ j) : (l.set i v).getD j d = l.getD j d := by
  rw [List.getD_eq_getElem?_getD, List.getD_eq_getElem?_getD,
    List.getElem?_set_ne h]

theorem getD_set_self {α : Type} (l : List α) (i : ℕ) (v d : α)
    (h : i < l.length) : (l.set i v).getD i d = v := by
  rw [List.getD_eq_getElem?_getD, List.getElem?_set_eq_of_lt v h]
  rfl

theorem mapAt_length {α : Type} (l : List α) (i : ℕ) (f : α → α) :
    (mapAt l i f).length = l.length := by
  unfold mapAt
  cases l.get? i with
  | none => rfl
  | some x => exact List.length_set l i (f x)

theorem mapAt_getD_ne {α : Type} (l : List α) (i j : ℕ) (f : α → α)
    (d : α) (h : j ≠ i) : (mapAt l i f).getD j d = l.getD j d := by
  unfold mapAt
  cases l.get? i with
  | none => rfl
  | some x => exact getD_set_ne l i j (f x) d (Ne.symm h)

theorem mapAt_getD_self {α : Type} (l : List α) (i : ℕ) (f : α → α)
    (d : α) (h : i < l.length) :
    (mapAt l i f).getD i d = f (l.getD i d) := by
  unfold mapAt
  cases hx : l.get? i with
  | none =>
    rw [List.get?_eq_getElem?] at hx
    rw [List.getElem?_eq_none_iff] at hx
    omega
  | some x =>
    have hxd : l.getD i d = x := by
      rw [List.getD_eq_getElem?_getD, ← List.get?_eq_getElem?, hx]
      rfl
    rw [getD_set_self l i (f x) d h, hxd]

theorem foldl_mapAt_length {α : Type} (g : α → α) :
    ∀ (P : List ℕ) (l : List α),
      (P.foldl (fun cs pid => mapAt cs pid g) l).length = l.length := by
  intro P
  induction P with
  | nil => intro l; rfl
  | cons q rest ih =>
    intro l
    rw [List.foldl_cons, ih (mapAt l q g), mapAt_length]

theorem foldl_mapAt_notmem {α : Type} (g : α → α) :
    ∀ (P : List ℕ) (l : List α) (i : ℕ) (d : α), i ∉ P →
      (P.foldl (fun cs pid => mapAt cs pid g) l).getD i d =
        l.getD i d := by
  intro P
  induction P with
  | nil => intro l i d _; rfl
  | cons q rest ih =>
    intro l i d hni
    rw [List.foldl_cons]
    have h1 : i ∉ rest := fun h => hni (List.mem_cons_of_mem q h)
    have h2 : i ≠ q := fun h => hni (h ▸ List.mem_cons_self q rest)
    rw [ih (mapAt l q g) i d h1, mapAt_getD_ne l q i g d h2]

theorem foldl_mapAt_mem {α : Type} (g : α → α) :
    ∀ (P : List ℕ) (l : List α) (pid : ℕ) (d : α), P.Nodup → pid ∈ P →
      pid < l.length →
      (P.foldl (fun cs q => mapAt cs q g) l).getD pid d =
        g (l.getD pid d) := by
  intro P
  induction P with
  | nil =>
    intro l pid d _ hmem _
    cases hmem
  | cons q rest ih =>
    intro l pid d hnd hmem hlt
    obtain ⟨hqni, hndr⟩ := List.nodup_cons.mp hnd
    rw [List.foldl_cons]
    rcases List.mem_cons.mp hmem with h1 | h1
    · subst h1
      rw [foldl_mapAt_notmem g rest (mapAt l pid g) pid d hqni]
      exact mapAt_getD_self l pid g d hlt
    · have hne : pid ≠ q := fun h => hqni (h ▸ h1)
      rw [ih (mapAt l q g) pid d hndr h1 (by rw [mapAt_length]; exact hlt)]
      rw [mapAt_getD_ne l q pid g d hne]

theorem mapRange_length {α : Type} (l : List α) (a b : ℕ) (f : α → α)
    (hab : a ≤ b) (hbl : b ≤ l.length) :
    (mapRange l a b f).length = l.length := by
  unfold mapRange
  simp [List.length_take, List.length_drop]
  omega

theorem mapRange_getD_out {α : Type} (l : List α) (a b : ℕ) (f : α → α)
    (i : ℕ) (d : α) (hab : a ≤ b) (hbl : b ≤ l.length)
    (h : i < a ∨ b ≤ i) : (mapRange l a b f).getD i d = l.getD i d := by
  unfold mapRange
  rw [List.getD_eq_getElem?_getD, List.getD_eq_getElem?_getD]
  rcases h with h1 | h1
  · rw [List.getElem?_append]
    rw [if_pos (by
      simp [List.length_append, List.length_take, List.length_map,
        List.length_drop]
      omega)]
    rw [List.getElem?_append]
    rw [if_pos (by simp [List.length_take]; omega)]
    rw [List.getElem?_take, if_pos h1]
  · rw [List.getElem?_append]
    rw [if_neg (by
      simp [List.length_append, List.length_take, List.length_map,
        List.length_drop]
      omega)]
    rw [List.getElem?_drop]
    have he : b + (i - (l.take a ++ ((l.drop a).take (b - a)).map
        f).length) = i := by
      simp [List.length_append, List.length_take, List.length_map,
        List.length_drop]
      omega
    rw [he]

theorem mapRange_getD_in {α : Type} (l : List α) (a b : ℕ) (f : α → α)
    (i : ℕ) (d : α) (h1 : a ≤ i) (h2 : i < b) (hbl : b ≤ l.length) :
    (mapRange l a b f).getD i d = f (l.getD i d) := by
  unfold mapRange
  rw [List.getD_eq_getElem?_getD, List.getD_eq_getElem?_getD]
  rw [List.getElem?_append]
  rw [if_pos (by
    simp [List.length_append, List.length_take, List.length_map,
      List.length_drop]
    omega)]
  rw [List.getElem?_append]
  rw [if_neg (by simp [List.length_take]; omega)]
  rw [List.getElem?_map]
  rw [List.getElem?_take]
  rw [if_pos (by simp [List.length_take]; omega)]
  rw [List.getElem?_drop]
  have h3 : a + (i - (l.take a).length) = i := by
    simp [List.length_take]
    omega
  rw [h3]
  have h4 : i < l.length := lt_of_lt_of_le h2 hbl
  rw [List.getElem?_eq_getElem h4]
  rfl

theorem fillRange_length {α : Type} (l : List α) (a b : ℕ) (v : α)
    (hab : a ≤ b) (hbl : b ≤ l.length) :
    (fillRange l a b v).length = l.length := by
  unfold fillRange
  simp [List.length_take, List.length_drop]
  omega

theorem fillRange_getD_out {α : Type} (l : List α) (a b : ℕ) (v : α)
    (i : ℕ) (d : α) (hab : a ≤ b) (hbl : b ≤ l.length)
    (h : i < a ∨ b ≤ i) : (fillRange l a b v).getD i d = l.getD i d := by
  unfold fillRange
  rw [List.getD_eq_getElem?_getD, List.getD_eq_getElem?_getD]
  rcases h with h1 | h1
  · rw [List.getElem?_append]
    rw [if_pos (by
      simp [List.length_append, List.length_take, List.length_replicate]
      omega)]
    rw [List.getElem?_append]
    rw [if_pos (by simp [List.length_take]; omega)]
    rw [List.getElem?_take, if_pos h1]
  · rw [List.getElem?_append]
    rw [if_neg (by
      simp [List.length_append, List.length_take, List.length_replicate]
      omega)]
    rw [List.getElem?_drop]
    have he : b + (i - (l.take a ++ List.replicate (b - a) v).length)
        = i := by
      simp [List.length_append, List.length_take, List.length_replicate]
      omega
    rw [he]

theorem fillRange_getD_in {α : Type} (l : List α) (a b : ℕ) (v : α)
    (i : ℕ) (d : α) (h1 : a ≤ i) (h2 : i < b) (hbl : b ≤ l.length) :
    (fillRange l a b v).getD i d = v := by
  unfold fillRange
  rw [List.getD_eq_getElem?_getD]
  rw [List.getElem?_append]
  rw [if_pos (by
    simp [List.length_append, List.length_take, List.length_replicate]
    omega)]
  rw [List.getElem?_append]
  rw [if_neg (by simp [List.length_take]; omega)]
  simp only [List.getElem?_replicate]
  rw [if_pos (by simp [List.length_take]; omega)]
  rfl

theorem foldl_set_length {α : Type} (v : α) :
    ∀ (P : List ℕ) (l : List α),
      (P.foldl (fun c pid => c.set pid v) l).length = l.length := by
  intro P
  induction P with
  | nil => intro l; rfl
  | cons q rest ih =>
    intro l
    rw [List.foldl_cons, ih (l.set q v), List.length_set]

theorem foldl_set_notmem {α : Type} (v : α) :
    ∀ (P : List ℕ) (l : List α) (i : ℕ) (d : α), i ∉ P →
      (P.foldl (fun c pid => c.set pid v) l).getD i d = l.getD i d := by
  intro P
  induction P with
  | nil => intro l i d _; rfl
  | cons q rest ih =>
    intro l i d hni
    rw [List.foldl_cons]
    have h1 : i ∉ rest := fun h => hni (List.mem_cons_of_mem q h)
    have h2 : q ≠ i := fun h => hni (h ▸ List.mem_cons_self q rest)
    rw [ih (l.set q v) i d h1, getD_set_ne l q i v d h2]

theorem foldl_set_mem {α : Type} (v : α) :
    ∀ (P : List ℕ) (l : List α) (i : ℕ) (d : α), i ∈ P →
      i < l.length →
      (P.foldl (fun c q => c.set q v) l).getD i d = v := by
  intro P
  induction P with
  | nil => intro l i d hmem _; cases hmem
  | cons q rest ih =>
    intro l i d hmem hlt
    rw [List.foldl_cons]
    by_cases hr : i ∈ rest
    · exact ih (l.set q v) i d hr (by rw [List.length_set]; exact hlt)
    · have hq : i = q := by
        rcases List.mem_cons.mp hmem with h | h
        · exact h
        · exact absurd h hr
      subst hq
      rw [foldl_set_notmem v rest (l.set i v) i d hr]
      exact getD_set_self l i v d hlt

theorem foldl_mapRange_length {α : Type} (f : α → α) :
    ∀ (C : List Slice) (l : List α),
      (∀ sl ∈ C, sl.1 ≤ sl.2 ∧ sl.2 ≤ l.length) →
      (C.foldl (fun c sl => mapRange c sl.1 sl.2 f) l).length =
        l.length := by
  intro C
  induction C with
  | nil => intro l _; rfl
  | cons c rest ih =>
    intro l hb
    have hc := hb c (List.mem_cons_self c rest)
    have hlen := mapRange_length l c.1 c.2 f hc.1 hc.2
    rw [List.foldl_cons]
    rw [ih (mapRange l c.1 c.2 f) (fun sl hs => by
      rw [hlen]; exact hb sl (List.mem_cons_of_mem c hs))]
    exact hlen

theorem foldl_mapRange_notmem {α : Type} (f : α → α) :
    ∀ (C : List Slice) (l : List α) (i : ℕ) (d : α),
      (∀ sl ∈ C, sl.1 ≤ sl.2 ∧ sl.2 ≤ l.length) →
      (∀ sl ∈ C, ¬(sl.1 ≤ i ∧ i < sl.2)) →
      (C.foldl (fun c sl => mapRange c sl.1 sl.2 f) l).getD i d =
        l.getD i d := by
  intro C
  induction C with
  | nil => intro l i d _ _; rfl
  | cons c rest ih =>
    intro l i d hb hni
    have hc := hb c (List.mem_cons_self c rest)
    have hlen := mapRange_length l c.1 c.2 f hc.1 hc.2
    rw [List.foldl_cons]
    rw [ih (mapRange l c.1 c.2 f) i d (fun sl hs => by
        rw [hlen]; exact hb sl (List.mem_cons_of_mem c hs))
      (fun sl hs => hni sl (List.mem_cons_of_mem c hs))]
    exact mapRange_getD_out l c.1 c.2 f i d hc.1 hc.2 (by
      have := hni c (List.mem_cons_self c rest)
      omega)

theorem foldl_fillRange_length {α : Type} (v : α) :
    ∀ (C : List Slice) (l : List α),
      (∀ sl ∈ C, sl.1 ≤ sl.2 ∧ sl.2 ≤ l.length) →
      (C.foldl (fun c sl => fillRange c sl.1 sl.2 v) l).length =
        l.length := by
  intro C
  induction C with
  | nil => intro l _; rfl
  | cons c rest ih =>
    intro l hb
    have hc := hb c (List.mem_cons_self c rest)
    have hlen := fillRange_length l c.1 c.2 v hc.1 hc.2
    rw [List.foldl_cons]
    rw [ih (fillRange l c.1 c.2 v) (fun sl hs => by
      rw [hlen]; exact hb sl (List.mem_cons_of_mem c hs))]
    exact hlen

theorem foldl_fillRange_notmem {α : Type} (v : α) :
    ∀ (C : List Slice) (l : List α) (i : ℕ) (d : α),
      (∀ sl ∈ C, sl.1 ≤ sl.2 ∧ sl.2 ≤ l.length) →
      (∀ sl ∈ C, ¬(sl.1 ≤ i ∧ i < sl.2)) →
      (C.foldl (fun c sl => fillRange c sl.1 sl.2 v) l).getD i d =
        l.getD i d := by
  intro C
  induction C with
  | nil => intro l i d _ _; rfl
  | cons c rest ih =>
    intro l i d hb hni
    have hc := hb c (List.mem_cons_self c rest)
    have hlen := fillRange_length l c.1 c.2 v hc.1 hc.2
    rw [List.foldl_cons]
    rw [ih (fillRange l c.1 c.2 v) i d (fun sl hs => by
        rw [hlen]; exact hb sl (List.mem_cons_of_mem c hs))
      (fun sl hs => hni sl (List.mem_cons_of_mem c hs))]
    exact fillRange_getD_out l c.1 c.2 v i d hc.1 hc.2 (by
      have := hni c (List.mem_cons_self c rest)
      omega)

theorem foldl_fillRange_mem {α : Type} (v : α) :
    ∀ (C : List Slice) (l : List α) (i : ℕ) (d : α),
      (∀ t ∈ C, t.1 ≤ t.2 ∧ t.2 ≤ l.length) →
      C.Pairwise (fun x y => x.2 ≤ y.1 ∨ y.2 ≤ x.1) →
      (∃ sl ∈ C, sl.1 ≤ i ∧ i < sl.2) →
      (C.foldl (fun c t => fillRange c t.1 t.2 v) l).getD i d = v := by
  intro C
  induction C with
  | nil =>
    intro l i d _ _ hex
    obtain ⟨sl, hsl, _⟩ := hex
    cases hsl
  | cons c rest ih =>
    intro l i d hb hpw hex
    have hc := hb c (List.mem_cons_self c rest)
    have hlen := fillRange_length l c.1 c.2 v hc.1 hc.2
    rw [List.foldl_cons]
    obtain ⟨sl, hsl, hi1, hi2⟩ := hex
    rcases List.mem_cons.mp hsl with h1 | h1
    · subst h1
      have hbr : ∀ t ∈ rest, t.1 ≤ t.2 ∧
          t.2 ≤ (fillRange l sl.1 sl.2 v).length := by
        intro t ht
        rw [hlen]
        exact hb t (List.mem_cons_of_mem _ ht)
      have hnir : ∀ t ∈ rest, ¬(t.1 ≤ i ∧ i < t.2) := by
        intro t ht
        have hd := (List.pairwise_cons.mp hpw).1 t ht
        omega
      rw [foldl_fillRange_notmem v rest (fillRange l sl.1 sl.2 v) i d
        hbr hnir]
      exact fillRange_getD_in l sl.1 sl.2 v i d hi1 hi2 hc.2
    · apply ih (fillRange l c.1 c.2 v) i d
      · intro t ht
        rw [hlen]
        exact hb t (List.mem_cons_of_mem _ ht)
      · exact (List.pairwise_cons.mp hpw).2
      · exact ⟨sl, h1, hi1, hi2⟩

theorem foldl_set_capture {α : Type} (v d : α) :
    ∀ (P : List ℕ) (col : List α) (acc : List α), P.Nodup →
      P.foldl (fun cb pid => (cb.1.set pid v, cb.2 ++ [cb.1.getD pid d]))
        (col, acc) =
      (P.foldl (fun c pid => c.set pid v) col,
       acc ++ P.map (fun pid => col.getD pid d)) := by
  intro P
  induction P with
  | nil => intro col acc _; simp
  | cons q rest ih =>
    intro col acc hnd
    obtain ⟨hq, hndr⟩ := List.nodup_cons.mp hnd
    rw [List.foldl_cons, List.foldl_cons]
    dsimp only
    rw [ih (col.set q v) (acc ++ [col.getD q d]) hndr]
    rw [List.map_cons]
    have hm : rest.map (fun pid => (col.set q v).getD pid d) =
        rest.map (fun pid => col.getD pid d) :=
      List.map_congr_left (fun pid hp =>
        getD_set_ne col q pid v d (fun he => hq (he ▸ hp)))
    rw [hm, List.append_assoc, List.singleton_append]

theorem foldl_fillRange_capture {α : Type} (v d : α) :
    ∀ (C : List Slice) (col : List α) (acc : List α),
      (∀ t ∈ C, t.1 < t.2 ∧ t.2 ≤ col.length) →
      C.Pairwise (fun x y => x.2 ≤ y.1 ∨ y.2 ≤ x.1) →
      C.foldl (fun cb sl =>
          (fillRange cb.1 sl.1 sl.2 v, cb.2 ++ [cb.1.getD sl.1 d]))
        (col, acc) =
      (C.foldl (fun c sl => fillRange c sl.1 sl.2 v) col,
       acc ++ C.map (fun sl => col.getD sl.1 d)) := by
  intro C
  induction C with
  | nil => intro col acc _ _; simp
  | cons c rest ih =>
    intro col acc hb hpw
    have hc := hb c (List.mem_cons_self c rest)
    have hlen := fillRange_length col c.1 c.2 v (le_of_lt hc.1) hc.2
    rw [List.foldl_cons, List.foldl_cons]
    dsimp only
    rw [ih (fillRange col c.1 c.2 v) (acc ++ [col.getD c.1 d])
      (fun t ht => by
        rw [hlen]
        exact hb t (List.mem_cons_of_mem _ ht))
      (List.pairwise_cons.mp hpw).2]
    rw [List.map_cons]
    have hm : rest.map (fun sl => (fillRange col c.1 c.2 v).getD sl.1 d)
        = rest.map (fun sl => col.getD sl.1 d) :=
      List.map_congr_left (fun sl hs => by
        have hd := (List.pairwise_cons.mp hpw).1 sl hs
        have hsb := hb sl (List.mem_cons_of_mem _ hs)
        exact fillRange_getD_out col c.1 c.2 v sl.1 d (le_of_lt hc.1)
          hc.2 (by omega))
    rw [hm, List.append_assoc, List.singleton_append]

theorem lookupA_setA_self {β : Type} (l : List (String × β))
    (k : String) (v : β) : lookupA (setA l k v) k = some v := by
  unfold setA lookupA
  split
  · rename_i h
    rw [List.find?_map]
    have hp : ((fun kv => kv.1 == k) ∘
        fun kv : String × β => if kv.1 == k then (kv.1, v) else kv) =
        fun kv => kv.1 == k := by
      funext kv
      by_cases hk : kv.1 = k
      · subst hk
        simp
      · simp [hk]
    rw [hp]
    rw [Option.isSome_iff_exists] at h
    obtain ⟨kv, hkv⟩ := h
    rw [hkv]
    have hk := List.find?_some hkv
    have hkeq : kv.1 = k := by simpa using hk
    simp [hkeq]
  · rename_i h
    rw [List.find?_append]
    have h2 : l.find? (fun kv => kv.1 == k) = none := by
      cases hf : l.find? (fun kv => kv.1 == k) with
      | none => rfl
      | some kv => exact absurd (by rw [hf]; rfl) h
    rw [h2]
    simp [List.find?]

theorem lookupA_setA_ne {β : Type} (l : List (String × β))
    (k k' : String) (v : β) (hne : k' ≠ k) :
    lookupA (setA l k v) k' = lookupA l k' := by
  unfold setA lookupA
  split
  · rw [List.find?_map]
    have hp : ((fun kv => kv.1 == k') ∘
        fun kv : String × β => if kv.1 == k then (kv.1, v) else kv) =
        fun kv => kv.1 == k' := by
      funext kv
      by_cases hk : kv.1 = k
      · subst hk
        simp [Ne.symm hne]
      · simp [hk]
    rw [hp]
    cases hf : l.find? (fun kv => kv.1 == k') with
    | none => rfl
    | some kv =>
      have hk' := List.find?_some hf
      have hkeq : kv.1 = k' := by simpa using hk'
      have hkne : ¬kv.1 = k := by
        rw [hkeq]
        exact hne
      simp [hkne]
  · rw [List.find?_append]
    have h2 : ([(k, v)].find? (fun kv => kv.1 == k')) = none := by
      have hkk : (k == k') = false := by
        rw [beq_eq_false_iff_ne]
        exact fun h => hne h.symm
      simp [List.find?, hkk]
    rw [h2, Option.or_none]

theorem mutKeys_capture (P : List ℕ) (C : List Slice)
    (hndP : P.Nodup)
    (hCC : C.Pairwise (fun x y => x.2 ≤ y.1 ∨ y.2 ≤ x.1))
    (hstart : ∀ sl ∈ C, sl.1 ∉ P) :
    ∀ (kwargs : Kwargs) (s : Space)
      (acc : List (String × List VisValue)),
      (∀ kv ∈ kwargs,
        (lookupA s.cuboidVisualMetadata kv.1).isSome = true) →
      (kwargs.map Prod.fst).Nodup →
      (∀ kv ∈ kwargs, ∀ sl ∈ C,
        sl.1 < sl.2 ∧ sl.2 ≤ (colOf s kv.1).length) →
      (mutKeys P C s kwargs acc).2 =
        .ok (acc ++ kwargs.map (fun kv =>
          (kv.1, capturedPriors P C (colOf s kv.1)))) ∧
      (∀ kv ∈ kwargs,
        lookupA (mutKeys P C s kwargs acc).1.cuboidVisualMetadata kv.1 =
          some (writtenCol P C kv.2 (colOf s kv.1))) ∧
      (∀ k', k' ∉ kwargs.map Prod.fst →
        lookupA (mutKeys P C s kwargs acc).1.cuboidVisualMetadata k' =
          lookupA s.cuboidVisualMetadata k') := by
  intro kwargs
  induction kwargs with
  | nil =>
    intro s acc _ _ _
    refine ⟨by simp [mutKeys], ?_, ?_⟩
    · intro kv hkv
      cases hkv
    · intro k' _
      rfl
  | cons kv0 rest ih =>
    obtain ⟨k, v⟩ := kv0
    intro s acc hks hknd hCb
    obtain ⟨col0, hcol0⟩ : ∃ c, lookupA s.cuboidVisualMetadata k = some c :=
      Option.isSome_iff_exists.mp (hks (k, v) (List.mem_cons_self _ _))
    have hcolOf : colOf s k = col0 := by
      unfold colOf
      rw [hcol0]
      rfl
    have hknotin : k ∉ rest.map Prod.fst := by
      have h := hknd
      rw [List.map_cons, List.nodup_cons] at h
      exact h.1
    have hkndr : (rest.map Prod.fst).Nodup := by
      have h := hknd
      rw [List.map_cons, List.nodup_cons] at h
      exact h.2
    have hkne : ∀ kv ∈ rest, kv.1 ≠ k := by
      intro kv hkv he
      exact hknotin (he ▸ List.mem_map_of_mem Prod.fst hkv)
    have hCbHead : ∀ sl ∈ C, sl.1 < sl.2 ∧ sl.2 ≤ col0.length := by
      intro sl hs
      have h := hCb (k, v) (List.mem_cons_self _ _) sl hs
      rwa [hcolOf] at h
    have hwl : (P.foldl (fun c pid => c.set pid v) col0).length =
        col0.length := foldl_set_length v P col0
    have hcr : C.foldl (fun cb sl =>
          (fillRange cb.1 sl.1 sl.2 v, cb.2 ++ [cb.1.getD sl.1 .vNone]))
        (P.foldl (fun cb pid =>
          (cb.1.set pid v, cb.2 ++ [cb.1.getD pid .vNone]))
          (col0, ([] : List VisValue))) =
        (writtenCol P C v col0, capturedPriors P C col0) := by
      rw [foldl_set_capture v VisValue.vNone P col0 [] hndP]
      rw [foldl_fillRange_capture v VisValue.vNone C _ _
        (fun t ht => by rw [hwl]; exact hCbHead t ht) hCC]
      unfold writtenCol capturedPriors
      congr 1
      rw [List.nil_append]
      congr 1
      exact List.map_congr_left (fun sl hs =>
        foldl_set_notmem v P col0 sl.1 VisValue.vNone (hstart sl hs))
    simp only [mutKeys]
    rw [hcol0]
    rw [if_neg (by simp)]
    simp only [Option.getD_some]
    rw [hcr]
    set s' := { s with cuboidVisualMetadata := setA s.cuboidVisualMetadata k (writtenCol P C v col0) } with hs'
    have hks' : ∀ kv ∈ rest,
        (lookupA s'.cuboidVisualMetadata kv.1).isSome = true := by
      intro kv hkv
      rw [hs']
      dsimp only
      rw [lookupA_setA_ne _ _ _ _ (hkne kv hkv)]
      exact hks kv (List.mem_cons_of_mem _ hkv)
    have hcolR : ∀ kv ∈ rest, colOf s' kv.1 = colOf s kv.1 := by
      intro kv hkv
      unfold colOf
      rw [hs']
      dsimp only
      rw [lookupA_setA_ne _ _ _ _ (hkne kv hkv)]
    have hCb' : ∀ kv ∈ rest, ∀ sl ∈ C,
        sl.1 < sl.2 ∧ sl.2 ≤ (colOf s' kv.1).length := by
      intro kv hkv
      rw [hcolR kv hkv]
      exact hCb kv (List.mem_cons_of_mem _ hkv)
    obtain ⟨ih1, ih2, ih3⟩ := ih s'
      (acc ++ [(k, capturedPriors P C col0)]) hks' hkndr hCb'
    refine ⟨?_, ?_, ?_⟩
    · rw [ih1]
      have hmr : rest.map (fun kv =>
          (kv.1, capturedPriors P C (colOf s' kv.1))) =
          rest.map (fun kv =>
          (kv.1, capturedPriors P C (colOf s kv.1))) :=
        List.map_congr_left (fun kv hkv => by rw [hcolR kv hkv])
      rw [hmr, List.map_cons, List.append_assoc, List.singleton_append]
      dsimp only
      rw [hcolOf]
    · intro kv hkv
      rcases List.mem_cons.mp hkv with h1 | h1
      · subst h1
        rw [ih3 k hknotin]
        rw [hs']
        dsimp only
        rw [lookupA_setA_self]
        rw [hcolOf]
      · rw [ih2 kv h1, hcolR kv h1]
    · intro k' hk'
      have hk'1 : k' ∉ rest.map Prod.fst := fun h => hk' (by
        rw [List.map_cons]
        exact List.mem_cons_of_mem _ h)
      have hk'2 : k' ≠ k := fun h => hk' (by
        rw [List.map_cons, h]
        exact List.mem_cons_self _ _)
      rw [ih3 k' hk'1]
      rw [hs']
      dsimp only
      rw [lookupA_setA_ne _ _ _ _ hk'2]

/-- C7: every effectful mutation appends a Mutation changelog entry that
carries, for each mutated key, the pre-mutation values: each selected
primitive's own prior value followed by each selected range's first
member's prior value, while the new value is broadcast-written across
every selected primitive and across each selected range in the visual
metadata store. -/
theorem C7_mutation_captures_prior_values
    (s : Space) (sel : Except Err (List ℕ × List Slice))
    (kwargs : Kwargs)
    (mk : List (String × List VisValue) → SpaceStateChange)
    (P : List ℕ) (C : List Slice)
    (hsel : sel = .ok (P, C))
    (hne : ¬(P = [] ∧ C = []))
    (hkw : kwargs ≠ [])
    (hndP : P.Nodup)
    (hCC : C.Pairwise (fun x y => x.2 ≤ y.1 ∨ y.2 ≤ x.1))
    (hstart : ∀ sl ∈ C, sl.1 ∉ P)
    (hks : ∀ kv ∈ kwargs,
      (lookupA s.cuboidVisualMetadata kv.1).isSome = true)
    (hknd : (kwargs.map Prod.fst).Nodup)
    (hlt : ∀ kv ∈ kwargs, ∀ pid ∈ P, pid < (colOf s kv.1).length)
    (hCb : ∀ kv ∈ kwargs, ∀ sl ∈ C,
      sl.1 < sl.2 ∧ sl.2 ≤ (colOf s kv.1).length) :
    (mutateGeneric s sel kwargs mk).2 = none ∧
    (mutateGeneric s sel kwargs mk).1.changelog =
      s.changelog ++ [mk (kwargs.map (fun kv =>
        (kv.1, capturedPriors P C (colOf s kv.1))))] ∧
    (∀ kv ∈ kwargs,
      lookupA (mutateGeneric s sel kwargs mk).1.cuboidVisualMetadata
        kv.1 = some (writtenCol P C kv.2 (colOf s kv.1))) ∧
    (∀ kv ∈ kwargs, ∀ pid ∈ P,
      ((lookupA (mutateGeneric s sel kwargs mk).1.cuboidVisualMetadata
        kv.1).getD []).getD pid .vNone = kv.2) ∧
    (∀ kv ∈ kwargs, ∀ sl ∈ C, ∀ i, sl.1 ≤ i → i < sl.2 →
      ((lookupA (mutateGeneric s sel kwargs mk).1.cuboidVisualMetadata
        kv.1).getD []).getD i .vNone = kv.2) := by
  subst hsel
  have hPCe : (P.isEmpty && C.isEmpty) = false := by
    cases P with
    | nil =>
      cases C with
      | nil => exact absurd ⟨rfl, rfl⟩ hne
      | cons a l => rfl
    | cons a l => rfl
  have hke : kwargs.isEmpty = false := by
    cases kwargs with
    | nil => exact absurd rfl hkw
    | cons a l => rfl
  obtain ⟨mc1, mc2, mc3⟩ :=
    mutKeys_capture P C hndP hCC hstart kwargs s [] hks hknd hCb
  rcases hmk : mutKeys P C s kwargs [] with ⟨s1, r⟩
  rw [hmk] at mc1 mc2
  rw [List.nil_append] at mc1
  have hr : r = Except.ok (kwargs.map (fun kv =>
      (kv.1, capturedPriors P C (colOf s kv.1)))) := mc1
  subst hr
  have hcl : s1.changelog = s.changelog := by
    have h := mutKeys_changelog P C kwargs s []
    rw [hmk] at h
    exact h
  have hwp : ∀ (v : VisValue) (col : List VisValue) (pid : ℕ),
      pid ∈ P → pid < col.length →
      (∀ t ∈ C, t.1 < t.2 ∧ t.2 ≤ col.length) →
      (writtenCol P C v col).getD pid .vNone = v := by
    intro v col pid hmem hplt hCbc
    unfold writtenCol
    by_cases hex : ∃ sl ∈ C, sl.1 ≤ pid ∧ pid < sl.2
    · exact foldl_fillRange_mem v C _ pid .vNone
        (fun t ht => ⟨le_of_lt (hCbc t ht).1, by
          rw [foldl_set_length]
          exact (hCbc t ht).2⟩) hCC hex
    · push_neg at hex
      rw [foldl_fillRange_notmem v C _ pid .vNone
        (fun t ht => ⟨le_of_lt (hCbc t ht).1, by
          rw [foldl_set_length]
          exact (hCbc t ht).2⟩)
        (fun sl hs => by
          have h := hex sl hs
          omega)]
      exact foldl_set_mem v P col pid .vNone hmem hplt
  have hwc : ∀ (v : VisValue) (col : List VisValue) (sl : Slice)
      (i : ℕ), sl ∈ C → sl.1 ≤ i → i < sl.2 →
      (∀ t ∈ C, t.1 < t.2 ∧ t.2 ≤ col.length) →
      (writtenCol P C v col).getD i .vNone = v := by
    intro v col sl i hsl hi1 hi2 hCbc
    unfold writtenCol
    exact foldl_fillRange_mem v C _ i .vNone
      (fun t ht => ⟨le_of_lt (hCbc t ht).1, by
        rw [foldl_set_length]
        exact (hCbc t ht).2⟩) hCC ⟨sl, hsl, hi1, hi2⟩
  unfold mutateGeneric mutateByIds
  dsimp only
  rw [if_neg (by simp [hPCe, hke])]
  rw [hmk]
  dsimp only
  refine ⟨rfl, ?_, ?_, ?_, ?_⟩
  · dsimp only
    rw [hcl]
  · intro kv hkv
    exact mc2 kv hkv
  · intro kv hkv pid hpid
    rw [mc2 kv hkv]
    rw [Option.getD_some]
    exact hwp kv.2 (colOf s kv.1) pid hpid (hlt kv hkv pid hpid)
      (hCb kv hkv)
  · intro kv hkv sl hsl i hi1 hi2
    rw [mc2 kv hkv]
    rw [Option.getD_some]
    exact hwc kv.2 (colOf s kv.1) sl i hsl hi1 hi2 (hCb kv hkv)

theorem C7_witness :
    selectByName spaceCubeAndNamedComposite "box" =
      Except.ok ([], [(1, 3)]) ∧
    (mutateByName spaceCubeAndNamedComposite "box"
      [("facecolor", VisValue.vStr "red")]).2 = none ∧
    (mutateByName spaceCubeAndNamedComposite "box"
      [("facecolor", VisValue.vStr "red")]).1.changelog =
      spaceCubeAndNamedComposite.changelog ++
        [SpaceStateChange.mutation
          [("facecolor", capturedPriors [] [(1, 3)]
            (colOf spaceCubeAndNamedComposite "facecolor"))]
          (some "box") none none none] ∧
    capturedPriors [] [(1, 3)]
        (colOf spaceCubeAndNamedComposite "facecolor") ≠
      [VisValue.vStr "red"] := by
  have h := C7_mutation_captures_prior_values
    spaceCubeAndNamedComposite
    (selectByName spaceCubeAndNamedComposite "box")
    [("facecolor", VisValue.vStr "red")]
    (fun b => SpaceStateChange.mutation b (some "box") none none none)
    [] [(1, 3)] (by decide) (by decide) (by decide) (by decide)
    (by decide) (by decide) (by decide) (by decide) (by decide)
    (by decide)
  exact ⟨by decide, h.1, h.2.1, by decide⟩

theorem addV_addV_negV (v t : V3) : addV (addV v t) (negV t) = v := by
  rcases v with ⟨a, b, c⟩
  rcases t with ⟨x, y, z⟩
  simp [addV, negV]


theorem mergeBox_self (b : Box) : mergeBox b b = b := by
  rcases b with ⟨⟨a1, a2⟩, ⟨b1, b2⟩, ⟨c1, c2⟩⟩
  simp [mergeBox]

theorem mergeBox_absorb (d b : Box) :
    mergeBox (mergeBox d b) b = mergeBox d b := by
  rcases d with ⟨⟨a1, a2⟩, ⟨b1, b2⟩, ⟨c1, c2⟩⟩
  rcases b with ⟨⟨x1, x2⟩, ⟨y1, y2⟩, ⟨z1, z2⟩⟩
  simp [mergeBox, min_assoc, max_assoc]

theorem updateBounds_dims_merge (s : Space) (a b : ℕ) (p : V3)
    (rest : List V3)
    (h : ((((s.cuboidCoordinates.drop a).take (b - a)).flatten).flatten)
      = p :: rest) :
    (updateBounds s a b).dims = mergeBox s.dims (boxOf (p :: rest)) := by
  unfold updateBounds
  rw [h]
  unfold boxOf
  rfl

theorem addCuboidPrimitive_dims_first (s : Space) (c : CuboidObj)
    (h : s.primitiveCounter = 0) :
    ((addCuboidPrimitive s c).1).dims = boundingBox c := by
  unfold addCuboidPrimitive
  dsimp only
  rw [if_pos h]
  repeat' split
  all_goals rfl

theorem setAt?_some {α : Type} (l : List α) (i : ℕ) (v : α)
    (l' : List α) (h : setAt? l i v = some l') :
    i < l.length ∧ l' = l.set i v := by
  unfold setAt? at h
  split at h
  · exact ⟨by assumption, (Option.some_inj.mp h).symm⟩
  · exact Option.noConfusion h

theorem addCuboidPrimitive_success_spec (s : Space) (c : CuboidObj)
    (s1 : Space) (pid : ℕ)
    (h : addCuboidPrimitive s c = (s1, .ok pid)) :
    pid < s1.cuboidCoordinates.length ∧
    s1.cuboidCoordinates.getD pid zeroBlock = c.faces := by
  unfold addCuboidPrimitive at h
  dsimp only at h
  split at h
  · injection h with h1 h2
    exact Except.noConfusion h2
  · rename_i shapes' hsh
    split at h
    · injection h with h1 h2
      exact Except.noConfusion h2
    · rename_i coords' hco
      injection h with h1 h2
      injection h2 with h3
      subst h3
      obtain ⟨hlt, hset⟩ := setAt?_some _ _ _ _ hco
      subst hset
      rw [← h1]
      dsimp only
      rw [List.length_set]
      exact ⟨hlt, getD_set_self _ _ _ _ hlt⟩

theorem addName_coords (s : Space) (nm : Option String)
    (ids : Option (List ℕ) × Option (List Slice)) :
    ((addName s nm ids).1).cuboidCoordinates = s.cuboidCoordinates := by
  unfold addName
  cases nm with
  | none => rfl
  | some n =>
    dsimp only
    split
    · rfl
    · split
      · rfl
      · rfl

theorem addCube_dims_merge (s : Space) (c : CuboidObj)
    (h0 : s.primitiveCounter ≠ 0) (hp : points c ≠ [])
    (hok : (addCube s c).2 = none) :
    ((addCube s c).1).dims = mergeBox s.dims (boundingBox c) := by
  unfold addCube at hok ⊢
  rcases hap : addCuboidPrimitive s c with ⟨s1, res⟩
  rw [hap] at hok
  try rw [hap]
  cases res with
  | error e => exact absurd hok (by simp)
  | ok pid =>
    dsimp only at hok ⊢
    rcases han : addName s1 c.name (some [pid], none) with ⟨s2, r2⟩
    rw [han] at hok
    try rw [han]
    cases r2 with
    | some e => exact absurd hok (by simp)
    | none =>
      dsimp only
      have hdims1 : s1.dims = mergeBox s.dims (boundingBox c) := by
        have hh := addCuboidPrimitive_dims s c h0
        rw [hap] at hh
        exact hh
      obtain ⟨hlt1, hrow1⟩ := addCuboidPrimitive_success_spec s c s1 pid
        hap
      have hco2 : s2.cuboidCoordinates = s1.cuboidCoordinates := by
        have hh := addName_coords s1 c.name (some [pid], none)
        rw [han] at hh
        exact hh
      have hd2 : s2.dims = s1.dims := by
        have hh := (addName_frame s1 c.name (some [pid], none)).2.2.2.2
        rw [han] at hh
        exact hh
      obtain ⟨p, rest, hpts⟩ : ∃ p rest, points c = p :: rest := by
        cases hc : points c with
        | nil => exact absurd hc hp
        | cons p rest => exact ⟨p, rest, rfl⟩
      have hslice :
          ((((s2.cuboidCoordinates.drop pid).take
            (pid + 1 - pid)).flatten).flatten) = p :: rest := by
        rw [hco2]
        have h1' : pid + 1 - pid = 1 := by omega
        rw [h1']
        rw [List.drop_eq_getElem_cons hlt1]
        rw [List.take_succ_cons, List.take_zero]
        rw [← List.getD_eq_getElem s1.cuboidCoordinates zeroBlock hlt1]
        rw [hrow1]
        show ([c.faces].flatten).flatten = p :: rest
        simp only [List.flatten, List.append_nil]
        exact hpts
      refine (updateBounds_dims_merge _ pid (pid + 1) p rest ?_).trans
        ?_
      · exact hslice
      · have hbb : boxOf (p :: rest) = boundingBox c := by
          rw [← hpts]
          rfl
        show mergeBox s2.dims (boxOf (p :: rest)) =
          mergeBox s.dims (boundingBox c)
        rw [hbb, hd2, hdims1, mergeBox_absorb]

theorem addCube_dims_first (s : Space) (c : CuboidObj)
    (h0 : s.primitiveCounter = 0) (hp : points c ≠ [])
    (hok : (addCube s c).2 = none) :
    ((addCube s c).1).dims = boundingBox c := by
  unfold addCube at hok ⊢
  rcases hap : addCuboidPrimitive s c with ⟨s1, res⟩
  rw [hap] at hok
  try rw [hap]
  cases res with
  | error e => exact absurd hok (by simp)
  | ok pid =>
    dsimp only at hok ⊢
    rcases han : addName s1 c.name (some [pid], none) with ⟨s2, r2⟩
    rw [han] at hok
    try rw [han]
    cases r2 with
    | some e => exact absurd hok (by simp)
    | none =>
      dsimp only
      have hdims1 : s1.dims = boundingBox c := by
        have hh := addCuboidPrimitive_dims_first s c h0
        rw [hap] at hh
        exact hh
      obtain ⟨hlt1, hrow1⟩ := addCuboidPrimitive_success_spec s c s1 pid
        hap
      have hco2 : s2.cuboidCoordinates = s1.cuboidCoordinates := by
        have hh := addName_coords s1 c.name (some [pid], none)
        rw [han] at hh
        exact hh
      have hd2 : s2.dims = s1.dims := by
        have hh := (addName_frame s1 c.name (some [pid], none)).2.2.2.2
        rw [han] at hh
        exact hh
      obtain ⟨p, rest, hpts⟩ : ∃ p rest, points c = p :: rest := by
        cases hc : points c with
        | nil => exact absurd hc hp
        | cons p rest => exact ⟨p, rest, rfl⟩
      have hslice :
          ((((s2.cuboidCoordinates.drop pid).take
            (pid + 1 - pid)).flatten).flatten) = p :: rest := by
        rw [hco2]
        have h1' : pid + 1 - pid = 1 := by omega
        rw [h1']
        rw [List.drop_eq_getElem_cons hlt1]
        rw [List.take_succ_cons, List.take_zero]
        rw [← List.getD_eq_getElem s1.cuboidCoordinates zeroBlock hlt1]
        rw [hrow1]
        show ([c.faces].flatten).flatten = p :: rest
        simp only [List.flatten, List.append_nil]
        exact hpts
      refine (updateBounds_dims_merge _ pid (pid + 1) p rest ?_).trans
        ?_
      · exact hslice
      · have hbb : boxOf (p :: rest) = boundingBox c := by
          rw [← hpts]
          rfl
        show mergeBox s2.dims (boxOf (p :: rest)) = boundingBox c
        rw [hbb, hd2, hdims1, mergeBox_self]

theorem addCuboidPrimitive_dims_extends (s : Space) (c : CuboidObj)
    (h0 : s.primitiveCounter ≠ 0) :
    boxExtends ((addCuboidPrimitive s c).1).dims s.dims := by
  rw [addCuboidPrimitive_dims s c h0]
  exact boxExtends_mergeBox _ _

theorem addCuboidPrimitive_counter_pos (s : Space) (c : CuboidObj)
    (h0 : s.primitiveCounter ≠ 0) :
    ((addCuboidPrimitive s c).1).primitiveCounter ≠ 0 := by
  unfold addCuboidPrimitive
  dsimp only
  repeat' split
  all_goals dsimp only
  all_goals omega

theorem addCuboidComposite_dims_extends (s : Space) (c : CompositeObj)
    (h0 : s.primitiveCounter ≠ 0) :
    boxExtends ((addCuboidComposite s c).1).dims s.dims := by
  obtain ⟨b, hb⟩ := addCuboidComposite_dims s c h0
  rw [hb]
  exact boxExtends_mergeBox _ _

theorem addCuboidComposite_counter_pos (s : Space) (c : CompositeObj)
    (h0 : s.primitiveCounter ≠ 0) :
    ((addCuboidComposite s c).1).primitiveCounter ≠ 0 := by
  unfold addCuboidComposite
  dsimp only
  repeat' split
  all_goals dsimp only
  all_goals omega

theorem clonePrimLoop_dims (off : V3) :
    ∀ (items : List (ℕ × List (String × VisValue))) (s : Space)
      (acc : List ℕ), s.primitiveCounter ≠ 0 →
      boxExtends ((clonePrimLoop off s items acc).1).dims s.dims ∧
      ((clonePrimLoop off s items acc).1).primitiveCounter ≠ 0 := by
  intro items
  induction items with
  | nil => intro s acc h0; exact ⟨boxExtends_refl _, h0⟩
  | cons it rest ih =>
    intro s acc h0
    obtain ⟨pid, vis⟩ := it
    simp only [clonePrimLoop]
    split
    all_goals rename_i s1 res heq
    · have hd : boxExtends s1.dims s.dims := by
        have h := congrArg (fun z => z.1.dims) heq
        dsimp only at h
        rw [← h]
        exact addCuboidPrimitive_dims_extends s _ h0
      exact ⟨hd, by
        have h := congrArg (fun z => z.1.primitiveCounter) heq
        dsimp only at h
        rw [← h]
        exact addCuboidPrimitive_counter_pos s _ h0⟩
    · have hd : boxExtends s1.dims s.dims := by
        have h := congrArg (fun z => z.1.dims) heq
        dsimp only at h
        rw [← h]
        exact addCuboidPrimitive_dims_extends s _ h0
      have hc : s1.primitiveCounter ≠ 0 := by
        have h := congrArg (fun z => z.1.primitiveCounter) heq
        dsimp only at h
        rw [← h]
        exact addCuboidPrimitive_counter_pos s _ h0
      have hr := ih { s1 with numObjs := s1.numObjs + 1 }
        (acc ++ [res]) hc
      exact ⟨boxExtends_trans hr.1 hd, hr.2⟩

theorem cloneCompLoop_dims (off : V3) :
    ∀ (items : List (Slice × List (String × VisValue))) (s : Space)
      (acc : List Slice), s.primitiveCounter ≠ 0 →
      boxExtends ((cloneCompLoop off s items acc).1).dims s.dims ∧
      ((cloneCompLoop off s items acc).1).primitiveCounter ≠ 0 := by
  intro items
  induction items with
  | nil => intro s acc h0; exact ⟨boxExtends_refl _, h0⟩
  | cons it rest ih =>
    intro s acc h0
    obtain ⟨sl, vis⟩ := it
    simp only [cloneCompLoop]
    split
    all_goals rename_i s1 res heq
    · have hd : boxExtends s1.dims s.dims := by
        have h := congrArg (fun z => z.1.dims) heq
        dsimp only at h
        rw [← h]
        exact addCuboidComposite_dims_extends s _ h0
      exact ⟨hd, by
        have h := congrArg (fun z => z.1.primitiveCounter) heq
        dsimp only at h
        rw [← h]
        exact addCuboidComposite_counter_pos s _ h0⟩
    · have hd : boxExtends s1.dims s.dims := by
        have h := congrArg (fun z => z.1.dims) heq
        dsimp only at h
        rw [← h]
        exact addCuboidComposite_dims_extends s _ h0
      have hc : s1.primitiveCounter ≠ 0 := by
        have h := congrArg (fun z => z.1.primitiveCounter) heq
        dsimp only at h
        rw [← h]
        exact addCuboidComposite_counter_pos s _ h0
      have hr := ih { s1 with numObjs := s1.numObjs + 1 }
        (acc ++ [res]) hc
      exact ⟨boxExtends_trans hr.1 hd, hr.2⟩

theorem cloneWithSelection_dims (s : Space) (off : V3)
    (sel : Except Err (List ℕ × List Slice))
    (kw : List (String × CloneVal)) (h0 : s.primitiveCounter ≠ 0) :
    boxExtends ((cloneWithSelection s off sel kw).1).dims s.dims := by
  unfold cloneWithSelection
  rcases sel with e | ⟨P, C⟩
  · exact boxExtends_refl _
  · dsimp only
    split
    · exact boxExtends_refl _
    · split
      · exact boxExtends_refl _
      · rename_i inter hint
        rcases hpl : clonePrimLoop off s (P.zip inter) [] with ⟨s1, r1⟩
        try rw [hpl]
        have hd1 : boxExtends s1.dims s.dims ∧
            s1.primitiveCounter ≠ 0 := by
          have h := clonePrimLoop_dims off (P.zip inter) s [] h0
          rw [hpl] at h
          exact h
        cases r1 with
        | error e => exact hd1.1
        | ok newP =>
          dsimp only
          rcases hcl : cloneCompLoop off s1 (C.zip inter) [] with
            ⟨s2, r2⟩
          try rw [hcl]
          have hd2 : boxExtends s2.dims s1.dims ∧
              s2.primitiveCounter ≠ 0 := by
            have h := cloneCompLoop_dims off (C.zip inter) s1 [] hd1.2
            rw [hcl] at h
            exact h
          cases r2 with
          | error e => exact boxExtends_trans hd2.1 hd1.1
          | ok newC =>
            dsimp only
            exact boxExtends_trans
              (boxExtends_trans (updateBounds_dims_extends _ _ _) hd2.1)
              hd1.1

theorem cloneByOffset_dims (s : Space) (off : V3)
    (co : Option (List ℤ)) (nm : Option String)
    (ts sc : Option ℕ) (kw : List (String × CloneVal))
    (h0 : s.primitiveCounter ≠ 0) :
    boxExtends ((cloneByOffset s off co nm ts sc kw).1).dims s.dims := by
  unfold cloneByOffset
  rcases co with _ | c <;> rcases nm with _ | n <;>
    rcases ts with _ | t <;> rcases sc with _ | scv
  all_goals first
    | exact cloneWithSelection_dims s off _ kw h0
    | exact boxExtends_refl _

/-- C2 (amended): transform calls never update the bounding box at
all; after the first insertion every add or clone only ever extends the
per-axis extrema (whether the call succeeds or raises); a successful
single-cuboid insertion merges exactly the object's bounding box into
the running box, and the first such insertion makes the box exactly the
object's bounding box. -/
theorem C2_amended_bounds_monotone_only_on_insertion (s : Space) :
    (∀ (coord : List ℤ) (t r : Option V3),
      ((transformByCoordinate s coord t r).1).dims = s.dims) ∧
    (∀ (nm : String) (t r : Option V3),
      ((transformByName s nm t r).1).dims = s.dims) ∧
    (∀ (ts : ℕ) (t r : Option V3),
      ((transformByTimestep s ts t r).1).dims = s.dims) ∧
    (∀ (sc : ℕ) (t r : Option V3),
      ((transformByScene s sc t r).1).dims = s.dims) ∧
    (s.primitiveCounter ≠ 0 →
      (∀ c : CuboidObj, boxExtends ((addCube s c).1).dims s.dims) ∧
      (∀ c : CuboidObj, boxExtends ((addCuboid s c).1).dims s.dims) ∧
      (∀ c : CompositeObj,
        boxExtends ((addComposite s c).1).dims s.dims)) ∧
    (∀ c : CuboidObj, s.primitiveCounter ≠ 0 → points c ≠ [] →
      (addCube s c).2 = none →
      ((addCube s c).1).dims = mergeBox s.dims (boundingBox c)) ∧
    (∀ c : CuboidObj, s.primitiveCounter ≠ 0 → points c ≠ [] →
      (addCuboid s c).2 = none →
      ((addCuboid s c).1).dims = mergeBox s.dims (boundingBox c)) ∧
    (∀ c : CuboidObj, s.primitiveCounter = 0 → points c ≠ [] →
      (addCube s c).2 = none →
      ((addCube s c).1).dims = boundingBox c) ∧
    (∀ (off : V3) (co : Option (List ℤ)) (nm : Option String)
      (ts sc : Option ℕ) (kw : List (String × CloneVal)),
      s.primitiveCounter ≠ 0 →
      boxExtends ((cloneByOffset s off co nm ts sc kw).1).dims
        s.dims) := by
  refine ⟨?_, ?_, ?_, ?_, ?_, ?_, ?_, ?_, ?_⟩
  · intro coord t r
    exact transformGeneric_dims s _ t r _
  · intro nm t r
    exact transformGeneric_dims s _ t r _
  · intro ts t r
    exact transformGeneric_dims s _ t r _
  · intro sc t r
    exact transformGeneric_dims s _ t r _
  · intro h
    exact ⟨fun c => addCube_dims_extends s c h,
      fun c => addCube_dims_extends s c h,
      fun c => addComposite_dims_extends s c h⟩
  · intro c h0 hp hok
    exact addCube_dims_merge s c h0 hp hok
  · intro c h0 hp hok
    exact addCube_dims_merge s c h0 hp hok
  · intro c h0 hp hok
    exact addCube_dims_first s c h0 hp hok
  · intro off co nm ts sc kw h0
    exact cloneByOffset_dims s off co nm ts sc kw h0

/-- C2 witness: on a one-cube store, a further insertion extends the box
and a transform leaves it unchanged. -/
theorem C2_amended_witness :
    spaceOneCube.primitiveCounter ≠ 0 ∧
    boxExtends
      ((addCube spaceOneCube (mkCube (5, 5, 5) 1 defaultVisual none)).1).dims
      spaceOneCube.dims ∧
    ((transformByCoordinate spaceOneCube [1, 2, 3] (some (3, 3, 3))
      none).1).dims = spaceOneCube.dims ∧
    ((addCube spaceOneCube (mkCube (5, 5, 5) 1 defaultVisual
        none)).1).dims =
      mergeBox spaceOneCube.dims
        (boundingBox (mkCube (5, 5, 5) 1 defaultVisual none)) ∧
    boxExtends ((cloneByOffset spaceOneCube (7, 7, 7) (some [1, 2, 3])
      none none none []).1).dims spaceOneCube.dims :=
  ⟨by decide,
   ((C2_amended_bounds_monotone_only_on_insertion spaceOneCube).2.2.2.2.1
     (by decide)).1 _,
   (C2_amended_bounds_monotone_only_on_insertion spaceOneCube).1 [1, 2, 3]
     (some (3, 3, 3)) none,
   (C2_amended_bounds_monotone_only_on_insertion
     spaceOneCube).2.2.2.2.2.1 _ (by decide) (by decide) (by decide),
   (C2_amended_bounds_monotone_only_on_insertion
     spaceOneCube).2.2.2.2.2.2.2.2 (7, 7, 7) (some [1, 2, 3]) none none
     none [] (by decide)⟩


theorem foldl_mapRange_mem {α : Type} (f : α → α) :
    ∀ (C : List Slice) (l : List α) (i : ℕ) (d : α),
      (∀ t ∈ C, t.1 ≤ t.2 ∧ t.2 ≤ l.length) →
      C.Pairwise (fun x y => x.2 ≤ y.1 ∨ y.2 ≤ x.1) →
      (∃ sl ∈ C, sl.1 ≤ i ∧ i < sl.2) →
      (C.foldl (fun c t => mapRange c t.1 t.2 f) l).getD i d =
        f (l.getD i d) := by
  intro C
  induction C with
  | nil =>
    intro l i d _ _ hex
    obtain ⟨sl, hsl, _⟩ := hex
    cases hsl
  | cons c rest ih =>
    intro l i d hb hpw hex
    have hc := hb c (List.mem_cons_self c rest)
    have hlen := mapRange_length l c.1 c.2 f hc.1 hc.2
    rw [List.foldl_cons]
    obtain ⟨sl, hsl, hi1, hi2⟩ := hex
    rcases List.mem_cons.mp hsl with h1 | h1
    · subst h1
      have hbr : ∀ t ∈ rest, t.1 ≤ t.2 ∧
          t.2 ≤ (mapRange l sl.1 sl.2 f).length := by
        intro t ht
        rw [hlen]
        exact hb t (List.mem_cons_of_mem _ ht)
      have hnir : ∀ t ∈ rest, ¬(t.1 ≤ i ∧ i < t.2) := by
        intro t ht
        have hd := (List.pairwise_cons.mp hpw).1 t ht
        omega
      rw [foldl_mapRange_notmem f rest (mapRange l sl.1 sl.2 f) i d
        hbr hnir]
      exact mapRange_getD_in l sl.1 sl.2 f i d hi1 hi2 hc.2
    · have hout : (mapRange l c.1 c.2 f).getD i d = l.getD i d := by
        have hd := (List.pairwise_cons.mp hpw).1 sl h1
        have hsb := hb sl (List.mem_cons_of_mem _ h1)
        exact mapRange_getD_out l c.1 c.2 f i d hc.1 hc.2 (by omega)
      rw [← hout]
      apply ih (mapRange l c.1 c.2 f) i d
      · intro u hu
        rw [hlen]
        exact hb u (List.mem_cons_of_mem _ hu)
      · exact (List.pairwise_cons.mp hpw).2
      · exact ⟨sl, h1, hi1, hi2⟩

theorem mapBlock_translate_base (t : V3) (blk : FacesBlock)
    (h1 : blk ≠ []) (h2 : blk.headD zeroFace ≠ []) :
    addV (((mapBlock (fun p => addV p t) blk).headD zeroFace).headD
      zeroV3) (negV t) = (blk.headD zeroFace).headD zeroV3 := by
  cases blk with
  | nil => exact absurd rfl h1
  | cons face rest =>
    cases face with
    | nil =>
      exact absurd (show ([] :: rest).headD zeroFace = [] from rfl) h2
    | cons v vs =>
      simp [mapBlock]
      exact addV_addV_negV v t

/-- C5: for every effectful transform call (any selection, through the
shared transform body the four selector methods instantiate): an
effectful translation by t succeeds, appends a Transform entry
recording the negated vector (the inverse), translates every selected
primitive's and every selected range member's geometry block pointwise
by t, and adding the logged vector to any selected object's
post-transform base vertex restores the original base vertex exactly;
an effectful reflection succeeds and appends a Transform entry
recording the reflection vector itself (its own inverse). -/
theorem C5_transform_logs_inverse_and_roundtrips
    (s : Space) (sel : Except Err (List ℕ × List Slice))
    (mk : V3 → String → SpaceStateChange) (t r : V3)
    (P : List ℕ) (C : List Slice)
    (hsel : sel = .ok (P, C))
    (hne : ¬(P = [] ∧ C = []))
    (hnzt : anyNonzero t = true)
    (hnzr : anyNonzero r = true)
    (hndP : P.Nodup)
    (hCC : C.Pairwise (fun x y => x.2 ≤ y.1 ∨ y.2 ≤ x.1))
    (hlt : ∀ pid ∈ P, pid < s.cuboidCoordinates.length)
    (hCb : ∀ sl ∈ C, sl.1 ≤ sl.2 ∧ sl.2 ≤ s.cuboidCoordinates.length)
    (hdisj : ∀ pid ∈ P, ∀ sl ∈ C, ¬(sl.1 ≤ pid ∧ pid < sl.2))
    (hbaseP : ∀ pid ∈ P,
      s.cuboidCoordinates.getD pid zeroBlock ≠ [] ∧
      (s.cuboidCoordinates.getD pid zeroBlock).headD zeroFace ≠ [])
    (hbaseC : ∀ sl ∈ C, ∀ k < sl.2 - sl.1,
      s.cuboidCoordinates.getD (sl.1 + k) zeroBlock ≠ [] ∧
      (s.cuboidCoordinates.getD (sl.1 + k) zeroBlock).headD zeroFace
        ≠ []) :
    (transformGeneric s sel (some t) none mk).2 = none ∧
    (transformGeneric s sel (some t) none mk).1.changelog =
      s.changelog ++ [mk (negV t) "translation"] ∧
    (∀ pid ∈ P,
      ((transformGeneric s sel (some t) none
          mk).1.cuboidCoordinates).getD pid zeroBlock =
        mapBlock (fun p => addV p t)
          (s.cuboidCoordinates.getD pid zeroBlock)) ∧
    (∀ sl ∈ C, ∀ pid, sl.1 ≤ pid → pid < sl.2 →
      ((transformGeneric s sel (some t) none
          mk).1.cuboidCoordinates).getD pid zeroBlock =
        mapBlock (fun p => addV p t)
          (s.cuboidCoordinates.getD pid zeroBlock)) ∧
    (∀ pid ∈ P,
      addV (baseVertexAt (transformGeneric s sel (some t) none mk).1
        pid) (negV t) = baseVertexAt s pid) ∧
    (∀ sl ∈ C, ∀ pid, sl.1 ≤ pid → pid < sl.2 →
      addV (baseVertexAt (transformGeneric s sel (some t) none mk).1
        pid) (negV t) = baseVertexAt s pid) ∧
    (transformGeneric s sel none (some r) mk).2 = none ∧
    (transformGeneric s sel none (some r) mk).1.changelog =
      s.changelog ++ [mk r "reflection"] := by
  subst hsel
  have hPCe : (P.isEmpty && C.isEmpty) = false := by
    cases P with
    | nil =>
      cases C with
      | nil => exact absurd ⟨rfl, rfl⟩ hne
      | cons a l => rfl
    | cons a l => rfl
  unfold transformGeneric
  dsimp only
  rw [if_neg (by simp [hPCe, hnzt]), if_neg (by simp [hPCe, hnzr])]
  simp only [transformByIds]
  have hco : ∀ pid, (pid ∈ P ∨ ∃ sl ∈ C, sl.1 ≤ pid ∧ pid < sl.2) →
      (C.foldl (fun cs sl =>
          mapRange cs sl.1 sl.2 (mapBlock (fun p => addV p t)))
        (P.foldl (fun cs q => mapAt cs q (mapBlock (fun p => addV p t)))
          s.cuboidCoordinates)).getD pid zeroBlock =
      mapBlock (fun p => addV p t)
        (s.cuboidCoordinates.getD pid zeroBlock) := by
    intro pid hp
    have hlen1 : (P.foldl (fun cs q =>
        mapAt cs q (mapBlock (fun p => addV p t)))
        s.cuboidCoordinates).length = s.cuboidCoordinates.length :=
      foldl_mapAt_length _ P _
    rcases hp with hp | ⟨sl, hsl, h1, h2⟩
    · have hstep1 := foldl_mapRange_notmem
        (mapBlock (fun p => addV p t)) C
        (P.foldl (fun cs q => mapAt cs q (mapBlock (fun p => addV p t)))
          s.cuboidCoordinates) pid zeroBlock
        (fun sl hs => ⟨(hCb sl hs).1, by
          rw [hlen1]
          exact (hCb sl hs).2⟩)
        (fun sl hs => hdisj pid hp sl hs)
      rw [hstep1]
      exact foldl_mapAt_mem _ P s.cuboidCoordinates pid zeroBlock hndP
        hp (hlt pid hp)
    · have hpnot : pid ∉ P := fun hm => hdisj pid hm sl hsl ⟨h1, h2⟩
      have hstep1 := foldl_mapRange_mem
        (mapBlock (fun p => addV p t)) C
        (P.foldl (fun cs q => mapAt cs q (mapBlock (fun p => addV p t)))
          s.cuboidCoordinates) pid zeroBlock
        (fun u hu => ⟨(hCb u hu).1, by
          rw [hlen1]
          exact (hCb u hu).2⟩)
        hCC ⟨sl, hsl, h1, h2⟩
      rw [hstep1]
      rw [foldl_mapAt_notmem _ P s.cuboidCoordinates pid zeroBlock
        hpnot]
  have hbase : ∀ pid, (pid ∈ P ∨ ∃ sl ∈ C, sl.1 ≤ pid ∧ pid < sl.2) →
      s.cuboidCoordinates.getD pid zeroBlock ≠ [] ∧
      (s.cuboidCoordinates.getD pid zeroBlock).headD zeroFace ≠ [] := by
    intro pid hp
    rcases hp with hp | ⟨sl, hsl, h1, h2⟩
    · exact hbaseP pid hp
    · have hk := hbaseC sl hsl (pid - sl.1) (by omega)
      have he : sl.1 + (pid - sl.1) = pid := by omega
      rwa [he] at hk
  refine ⟨trivial, trivial, ?_, ?_, ?_, ?_, trivial, trivial⟩
  · intro pid hp
    exact hco pid (Or.inl hp)
  · intro sl hsl pid h1 h2
    exact hco pid (Or.inr ⟨sl, hsl, h1, h2⟩)
  · intro pid hp
    have h3 := hco pid (Or.inl hp)
    obtain ⟨hb1, hb2⟩ := hbase pid (Or.inl hp)
    unfold baseVertexAt
    dsimp only
    rw [h3]
    exact mapBlock_translate_base t _ hb1 hb2
  · intro sl hsl pid h1 h2
    have h3 := hco pid (Or.inr ⟨sl, hsl, h1, h2⟩)
    obtain ⟨hb1, hb2⟩ := hbase pid (Or.inr ⟨sl, hsl, h1, h2⟩)
    unfold baseVertexAt
    dsimp only
    rw [h3]
    exact mapBlock_translate_base t _ hb1 hb2

theorem C5_witness :
    selectByScene spaceCubeAndNamedComposite 0 =
      Except.ok ([0], [(1, 3)]) ∧
    (transformByScene spaceCubeAndNamedComposite 0 (some (4, 5, 6))
      none).1.changelog =
      spaceCubeAndNamedComposite.changelog ++
        [SpaceStateChange.transform (negV (4, 5, 6)) "translation" none
          none none (some 0)] ∧
    (∀ pid ∈ [0],
      addV (baseVertexAt (transformByScene spaceCubeAndNamedComposite 0
          (some (4, 5, 6)) none).1 pid) (negV (4, 5, 6)) =
        baseVertexAt spaceCubeAndNamedComposite pid) ∧
    (∀ sl ∈ [((1 : ℕ), (3 : ℕ))], ∀ pid, sl.1 ≤ pid → pid < sl.2 →
      addV (baseVertexAt (transformByScene spaceCubeAndNamedComposite 0
          (some (4, 5, 6)) none).1 pid) (negV (4, 5, 6)) =
        baseVertexAt spaceCubeAndNamedComposite pid) ∧
    (transformByScene spaceCubeAndNamedComposite 0 none
      (some (-1, -1, -1))).1.changelog =
      spaceCubeAndNamedComposite.changelog ++
        [SpaceStateChange.transform (-1, -1, -1) "reflection" none none
          none (some 0)] := by
  have h := C5_transform_logs_inverse_and_roundtrips
    spaceCubeAndNamedComposite
    (selectByScene spaceCubeAndNamedComposite 0)
    (fun v n => SpaceStateChange.transform v n none none none (some 0))
    (4, 5, 6) (-1, -1, -1) [0] [(1, 3)] (by decide) (by decide)
    (by decide) (by decide) (by decide) (by decide) (by decide)
    (by decide) (by decide) (by decide) (by decide)
  exact ⟨by decide, h.2.1, h.2.2.2.2.1, h.2.2.2.2.2.1,
    h.2.2.2.2.2.2.2⟩

end Brickblock
